import Mathlib

/-!
# V2bX panel client: node-configuration fetcher (`api/panel/node.go`)

A shallow embedding of `GetNodeInfo` and `intervalToTime`, followed by the
properties proved about them.

Conventions of the embedding

* Go `string` is `String`; `[]byte` is `List UInt8`; `[]byte(s)` is the UTF-8
  encoding of `s`.
* Go `int` and `time.Duration` are `Int`; arithmetic on a duration wraps to the
  signed 64-bit range (`wrap64`).
* A Go `interface{}` value is a `GoVal`, one constructor per dynamic type the
  code can meet.
* A run either returns or panics: `Exec`.
* Library calls (`strings`, `strconv`, `base64`) are modelled by the small
  functions of the first section; `json.Unmarshal`, `checkResponse` and
  `crypt.GenX25519Private` are parameters (`Env`).
-/

namespace V2bX

/-! ## Execution outcomes -/

/-- Outcome of running Go code: a normal return, or a run-time panic. -/
inductive Exec (α : Type) where
  | ret (a : α)
  | panic (msg : String)
  deriving Repr, DecidableEq

/-! ## Dynamic values -/

/-- A finite `float64`: the value `m * 2 ^ e`. -/
structure Float64 where
  m : Int
  e : Int
  deriving Repr, DecidableEq

/-- The real value of a finite `float64`, as a rational. -/
def Float64.toRat (f : Float64) : ℚ :=
  (f.m : ℚ) * (2 : ℚ) ^ f.e

/-- A Go `interface{}` value, by dynamic type. JSON decoding into `interface{}`
produces `nil`, `bool`, `float64`, `str`, `list` and `map`. -/
inductive GoVal where
  | nil
  | bool (b : Bool)
  | int (n : Int)
  | float64 (f : Float64)
  | str (s : String)
  | strs (xs : List String)
  | list (xs : List GoVal)
  | map (kv : List (String × GoVal))

/-! ## Library functions -/

/-- Split a character list at every occurrence of `sep`. -/
def splitChars (sep : Char) : List Char → List (List Char)
  | [] => [[]]
  | c :: cs =>
    if c = sep then [] :: splitChars sep cs
    else
      match splitChars sep cs with
      | [] => [[c]]
      | w :: ws => (c :: w) :: ws

/-- Go `strings.Split(s, sep)` for a one-character separator. -/
def Split (s : String) (sep : Char) : List String :=
  (splitChars sep s.data).map String.mk

/-- Go `strings.HasPrefix(s, p)`. -/
def HasPrefix (s p : String) : Bool :=
  p.data.isPrefixOf s.data

/-- Go `strings.TrimPrefix(s, p)`. -/
def TrimPrefix (s p : String) : String :=
  if HasPrefix s p then String.mk (s.data.drop p.data.length) else s

/-- Go `strings.Join(xs, "")`. -/
def Join (xs : List String) : String :=
  String.mk (xs.map String.data).flatten

/-- Go `[]byte(s)`. -/
def bytes (s : String) : List UInt8 :=
  s.toUTF8.data.toList

/-- Go `strconv.Itoa(i)`: the decimal digits, after a `-` for a negative `i`. -/
def Itoa (i : Int) : String :=
  match i with
  | Int.ofNat n => Nat.repr n
  | Int.negSucc n => "-" ++ Nat.repr (n + 1)

/-- The two errors of `strconv`: `ErrSyntax` and `ErrRange`. -/
inductive NumError where
  | ErrSyntax
  | ErrRange
  deriving Repr, DecidableEq

/-- Largest `uint64`. -/
def maxUint64 : Nat := 2 ^ 64 - 1

/-- The digit loop of Go `strconv.ParseUint(s, 10, 64)`: `n` is the value read
so far. A non-digit is a syntax error (value 0); an overflow stops the loop at
once with the largest value and a range error. -/
def parseUintLoop : List Char → Nat → Nat × Option NumError
  | [], n => (n, none)
  | c :: cs, n =>
    if '0' ≤ c ∧ c ≤ '9' then
      if n ≥ maxUint64 / 10 + 1 then (maxUint64, some NumError.ErrRange)
      else
        let n1 := n * 10 + (c.toNat - '0'.toNat)
        if n1 > maxUint64 then (maxUint64, some NumError.ErrRange)
        else parseUintLoop cs n1
    else (0, some NumError.ErrSyntax)

/-- Go `strconv.ParseUint(s, 10, 64)` on the characters of `s`. -/
def ParseUint (s : List Char) : Nat × Option NumError :=
  match s with
  | [] => (0, some NumError.ErrSyntax)
  | _ => parseUintLoop s 0

/-- Go `strconv.ParseInt(s, 10, 0)` with 64-bit `int`, on the characters of `s`
after the sign has been read (`neg`). -/
def parseIntSigned (neg : Bool) (s : List Char) : Int × Option NumError :=
  match ParseUint s with
  | (_, some NumError.ErrSyntax) => (0, some NumError.ErrSyntax)
  | (un, _) =>
    if !neg ∧ un ≥ 2 ^ 63 then ((2 : Int) ^ 63 - 1, some NumError.ErrRange)
    else if neg ∧ un > 2 ^ 63 then (-(2 : Int) ^ 63, some NumError.ErrRange)
    else (if neg then -(un : Int) else (un : Int), none)

/-- Go `strconv.Atoi(s)`: the value and the error. On a range error the value
is the nearest end of the `int` range, not 0. -/
def Atoi (s : String) : Int × Option NumError :=
  match s.data with
  | [] => (0, some NumError.ErrSyntax)
  | c :: cs =>
    if c = '+' then parseIntSigned false cs
    else if c = '-' then parseIntSigned true cs
    else parseIntSigned false (c :: cs)

/-- One character of the URL-safe base64 alphabet. -/
def b64urlChar (n : Nat) : Char :=
  if n < 26 then Char.ofNat (65 + n)
  else if n < 52 then Char.ofNat (97 + (n - 26))
  else if n < 62 then Char.ofNat (48 + (n - 52))
  else if n = 62 then '-'
  else '_'

/-- The characters of the unpadded URL-safe base64 encoding. -/
def b64urlChars : List UInt8 → List Char
  | [] => []
  | [a] => [b64urlChar (a.toNat / 4), b64urlChar (a.toNat % 4 * 16)]
  | [a, b] =>
    [b64urlChar (a.toNat / 4), b64urlChar (a.toNat % 4 * 16 + b.toNat / 16),
      b64urlChar (b.toNat % 16 * 4)]
  | a :: b :: c :: rest =>
    b64urlChar (a.toNat / 4) :: b64urlChar (a.toNat % 4 * 16 + b.toNat / 16) ::
      b64urlChar (b.toNat % 16 * 4 + c.toNat / 64) :: b64urlChar (c.toNat % 64) ::
      b64urlChars rest

/-- Go `base64.RawURLEncoding.EncodeToString(b)`. -/
def RawURLEncodeToString (b : List UInt8) : String :=
  String.mk (b64urlChars b)

/-! ## Durations -/

/-- Reduce an integer to the signed 64-bit range (two's complement wrap). -/
def wrap64 (z : Int) : Int :=
  (z + 2 ^ 63) % 2 ^ 64 - 2 ^ 63

/-- Go `time.Second`, in nanoseconds. -/
def Second : Int := 1000000000

/-- Go `int64(f)` for a finite `float64`: the fraction is discarded (truncation
toward zero). A value outside the `int64` range has no defined result in Go; the
amd64 result `-2^63` is used here. -/
def Float64.toInt64 (f : Float64) : Int :=
  let t : Int := if 0 ≤ f.e then f.m * 2 ^ f.e.toNat else Int.tdiv f.m (2 ^ (-f.e).toNat)
  if -(2 : Int) ^ 63 ≤ t ∧ t < 2 ^ 63 then t else -(2 : Int) ^ 63

/-- Go `intervalToTime` (node.go:268-280): the duration in nanoseconds.
`reflect.TypeOf(nil)` is the nil `Type`, so `.Kind()` on it panics; in the
`default` case `reflect.Value.Int` panics on a value that is not a signed
integer. -/
def intervalToTime (i : GoVal) : Exec Int :=
  match i with
  | GoVal.nil => Exec.panic "invalid memory address or nil pointer dereference"
  | GoVal.int n => Exec.ret (wrap64 (n * Second))
  | GoVal.str s => Exec.ret (wrap64 ((Atoi s).1 * Second))
  | GoVal.float64 f => Exec.ret (wrap64 (f.toInt64 * Second))
  | GoVal.bool _ => Exec.panic "reflect: call of reflect.Value.Int on bool Value"
  | GoVal.strs _ => Exec.panic "reflect: call of reflect.Value.Int on slice Value"
  | GoVal.list _ => Exec.panic "reflect: call of reflect.Value.Int on slice Value"
  | GoVal.map _ => Exec.panic "reflect: call of reflect.Value.Int on map Value"

/-! ## Wire and descriptor types (node.go:15-113) -/

structure Route where
  Id : Int
  Match : GoVal
  Action : String
  ActionValue : String

structure BaseConfig where
  PushInterval : GoVal
  PullInterval : GoVal

structure CommonNodeRsp where
  Host : String
  ServerPort : Int
  ServerName : String
  Routes : List Route
  BaseConfig : BaseConfig

structure VMessNodeRsp where
  Tls : Int
  Network : String
  NetworkSettings : List UInt8

structure VLESSNodeRsp where
  Flow : String
  Tls : Int
  TlsSettings : List UInt8
  Network : String
  NetworkSettings : List UInt8

structure TlsSettings where
  ServerName : String
  ServerPort : Int
  ShortID : String
  deriving Repr, DecidableEq

structure ShadowsocksNodeRsp where
  Cipher : String
  ServerKey : String

structure HysteriaNodeRsp where
  UpMbps : Int
  DownMbps : Int
  Obfs : String

structure RealityConfig where
  Dest : String
  Xver : String
  ServerNames : List String
  PrivateKey : String
  MinClientVer : String
  MaxClientVer : String
  MaxTimeDiff : String
  ShortIds : List String
  deriving Repr, DecidableEq

/-- The `*RealityConfig` pointer is an `Option`: `none` is `nil`. -/
structure ExtraConfig where
  EnableVless : String
  Flow : String
  EnableReality : String
  RealityConfig : Option RealityConfig
  deriving Repr, DecidableEq

structure Rules where
  Regexp : List String
  Protocol : List String
  deriving Repr, DecidableEq

/-- The value stored in `DNSMap`: the map literal with keys `"address"` and
`"domains"` (node.go:172-175). -/
structure DNSEntry where
  address : String
  domains : List String
  deriving Repr, DecidableEq

/-- `DNSMap` is a Go map, kept as an association list with distinct keys. -/
structure RawDNS where
  DNSMap : List (String × DNSEntry)
  DNSJson : List UInt8
  deriving Repr, DecidableEq

structure NodeInfo where
  Id : Int
  Type_ : String
  Rules : Rules
  Host : String
  Port : Int
  Network : String
  RawDNS : RawDNS
  ExtraConfig : ExtraConfig
  TlsSettings : TlsSettings
  NetworkSettings : List UInt8
  Tls : Bool
  ServerName : String
  UpMbps : Int
  DownMbps : Int
  ServerKey : String
  Cipher : String
  HyObfs : String
  PushInterval : Int
  PullInterval : Int
  deriving Repr, DecidableEq

/-- Go map assignment `m[k] = v`. -/
def MapSet (m : List (String × DNSEntry)) (k : String) (v : DNSEntry) :
    List (String × DNSEntry) :=
  (k, v) :: m.filter (fun kv => kv.1 != k)

/-- Go map read `m[k]`, `none` when the key is absent. -/
def MapGet (m : List (String × DNSEntry)) (k : String) : Option DNSEntry :=
  (m.find? (fun kv => kv.1 == k)).map Prod.snd

/-- The zero `TlsSettings`. -/
def TlsSettings.zero : TlsSettings := ⟨"", 0, ""⟩

/-- The zero `ExtraConfig`. -/
def ExtraConfig.zero : ExtraConfig := ⟨"", "", "", none⟩

/-- The descriptor built at node.go:128-135: `Id` and `Type` from the client, an
empty `DNSMap`, an empty `DNSJson`, every other field zero. -/
def NodeInfo.init (id : Int) (type : String) : NodeInfo :=
  { Id := id, Type_ := type, Rules := ⟨[], []⟩, Host := "", Port := 0, Network := "",
    RawDNS := ⟨[], []⟩, ExtraConfig := ExtraConfig.zero, TlsSettings := TlsSettings.zero,
    NetworkSettings := [], Tls := false, ServerName := "", UpMbps := 0, DownMbps := 0,
    ServerKey := "", Cipher := "", HyObfs := "", PushInterval := 0, PullInterval := 0 }

/-! ## Route interpretation (node.go:142-182) -/

/-- The type assertion `temp[i].(string)` (node.go:152). -/
def assertString : GoVal → Exec String
  | GoVal.str s => Exec.ret s
  | _ => Exec.panic "interface conversion: interface {} is not string"

/-- The loop of node.go:151-153 over the elements of `temp`. -/
def assertStrings : List GoVal → Exec (List String)
  | [] => Exec.ret []
  | v :: vs =>
    match assertString v with
    | Exec.panic p => Exec.panic p
    | Exec.ret s =>
      match assertStrings vs with
      | Exec.panic p => Exec.panic p
      | Exec.ret ss => Exec.ret (s :: ss)

/-- Match normalization (node.go:143-154): the value of `matchs` for a route's
`Match`. The last branch is the unchecked assertion `Match.([]interface{})`. -/
def matchsOf (m : GoVal) : Exec (List String) :=
  match m with
  | GoVal.str s => Exec.ret (Split s ',')
  | GoVal.strs xs => Exec.ret xs
  | GoVal.list temp => assertStrings temp
  | _ => Exec.panic "interface conversion: interface {} is not []interface {}"

/-- One iteration of the `block` loop (node.go:157-165). -/
def blockStep (node : NodeInfo) (v : String) : NodeInfo :=
  if HasPrefix v "protocol:" then
    { node with Rules := { node.Rules with
        Protocol := node.Rules.Protocol ++ [TrimPrefix v "protocol:"] } }
  else
    { node with Rules := { node.Rules with
        Regexp := node.Rules.Regexp ++ [TrimPrefix v "regexp:"] } }

/-- The `dns` case (node.go:166-180) for route index `i`. `matchs[0]` is read
without a length check. The `break` of node.go:179 is the last statement of the
case and leaves the `switch`, so the case ends as the other branch does. -/
def dnsCase (i : Nat) (actionValue : String) (matchs : List String) (node : NodeInfo) :
    Exec NodeInfo :=
  match matchs with
  | [] => Exec.panic "runtime error: index out of range [0] with length 0"
  | m0 :: rest =>
    if m0 ≠ "main" then
      Exec.ret { node with RawDNS := { node.RawDNS with
        DNSMap := MapSet node.RawDNS.DNSMap (Itoa (Int.ofNat i)) ⟨actionValue, matchs⟩ } }
    else
      Exec.ret { node with RawDNS := { node.RawDNS with DNSJson := bytes (Join rest) } }

/-- The body of the route loop for `common.Routes[i] = r` (node.go:143-181). -/
def routeStep (i : Nat) (r : Route) (node : NodeInfo) : Exec NodeInfo :=
  match matchsOf r.Match with
  | Exec.panic p => Exec.panic p
  | Exec.ret matchs =>
    if r.Action = "block" then Exec.ret (matchs.foldl blockStep node)
    else if r.Action = "dns" then dnsCase i r.ActionValue matchs node
    else Exec.ret node

/-- The route loop `for i := range common.Routes` (node.go:142-182), started at
index `i` on the routes still to be visited. -/
def routesFrom (i : Nat) : List Route → NodeInfo → Exec NodeInfo
  | [], node => Exec.ret node
  | r :: rs, node =>
    match routeStep i r node with
    | Exec.panic p => Exec.panic p
    | Exec.ret node1 => routesFrom (i + 1) rs node1

/-- The whole route loop. -/
def interpretRoutes (routes : List Route) (node : NodeInfo) : Exec NodeInfo :=
  routesFrom 0 routes node

/-! ## The fetch (node.go:115-266) -/

/-- The client fields `GetNodeInfo` reads and writes. -/
structure Client where
  NodeId : Int
  NodeType : String
  Token : String
  nodeEtag : String
  deriving Repr, DecidableEq

/-- The HTTP response `r`: status, body, and `r.Header().Get("ETag")` (the empty
string when the header is absent). -/
structure Response where
  StatusCode : Int
  Body : List UInt8
  ETag : String

/-- What `GetNodeInfo` calls outside this file. `checkResponse r err` is
`c.checkResponse(r, path, err)`; `GenX25519Private` is the key derivation of
`common/crypt`; each `unmarshal…` is `json.Unmarshal` into a zero value of the
named type, giving the decoded value or the error text. -/
structure Env where
  checkResponse : Response → Option String → Option String
  GenX25519Private : List UInt8 → List UInt8
  unmarshalCommon : List UInt8 → Except String CommonNodeRsp
  unmarshalVMess : List UInt8 → Except String VMessNodeRsp
  unmarshalVLESS : List UInt8 → Except String VLESSNodeRsp
  unmarshalShadowsocks : List UInt8 → Except String ShadowsocksNodeRsp
  unmarshalHysteria : List UInt8 → Except String HysteriaNodeRsp
  unmarshalExtraConfig : List UInt8 → Except String ExtraConfig
  unmarshalTlsSettings : List UInt8 → Except String TlsSettings

/-- The values `GetNodeInfo` returns, with the client as the call leaves it. -/
structure Returned where
  node : Option NodeInfo
  err : Option String
  c : Client
  deriving Repr, DecidableEq

/-- The Reality private key of node.go:209-210 and 228, 240:
`base64.RawURLEncoding.EncodeToString(crypt.GenX25519Private([]byte(c.NodeType + c.Token)))`. -/
def realityKey (env : Env) (c : Client) : String :=
  RawURLEncodeToString (env.GenX25519Private (bytes (c.NodeType ++ c.Token)))

/-- The `vmess` case (node.go:190-212). -/
def parseVMess (env : Env) (c : Client) (body : List UInt8) (node : NodeInfo) :
    Except String NodeInfo :=
  match env.unmarshalVMess body with
  | Except.error e => Except.error ("decode v2ray params error: " ++ e)
  | Except.ok rsp =>
    let node1 := { node with Network := rsp.Network, NetworkSettings := rsp.NetworkSettings }
    let node2 := if rsp.Tls = 1 then { node1 with Tls := true } else node1
    match env.unmarshalExtraConfig rsp.NetworkSettings with
    | Except.error e => Except.error ("decode vless extra error: " ++ e)
    | Except.ok extra =>
      if extra.EnableReality = "true" then
        match extra.RealityConfig with
        | none =>
          Except.ok { node2 with ExtraConfig := { extra with EnableReality := "false" } }
        | some rc =>
          Except.ok { node2 with ExtraConfig := { extra with
            RealityConfig := some { rc with PrivateKey := realityKey env c } } }
      else Except.ok { node2 with ExtraConfig := extra }

/-- The `vless` case (node.go:213-243). -/
def parseVLESS (env : Env) (c : Client) (body : List UInt8) (node : NodeInfo) :
    Except String NodeInfo :=
  match env.unmarshalVLESS body with
  | Except.error e => Except.error ("decode v2ray params error: " ++ e)
  | Except.ok rsp =>
    let node1 := { node with Network := rsp.Network, NetworkSettings := rsp.NetworkSettings }
    let node2 := if rsp.Tls ≠ 0 then { node1 with Tls := true } else node1
    if rsp.Tls = 2 then
      match env.unmarshalTlsSettings rsp.TlsSettings with
      | Except.error e => Except.error ("decode vless extra error: " ++ e)
      | Except.ok tls =>
        Except.ok { node2 with
          TlsSettings := tls
          ExtraConfig :=
            { EnableVless := ""
              Flow := rsp.Flow
              EnableReality := "true"
              RealityConfig := some
                { Dest := Itoa tls.ServerPort
                  Xver := ""
                  ServerNames := [tls.ServerName]
                  PrivateKey := realityKey env c
                  MinClientVer := ""
                  MaxClientVer := ""
                  MaxTimeDiff := ""
                  ShortIds := [tls.ShortID] } } }
    else Except.ok node2

/-- The `shadowsocks` case (node.go:244-251). -/
def parseShadowsocks (env : Env) (body : List UInt8) (node : NodeInfo) :
    Except String NodeInfo :=
  match env.unmarshalShadowsocks body with
  | Except.error e => Except.error ("decode v2ray params error: " ++ e)
  | Except.ok rsp => Except.ok { node with ServerKey := rsp.ServerKey, Cipher := rsp.Cipher }

/-- The `hysteria` case (node.go:254-262). -/
def parseHysteria (env : Env) (body : List UInt8) (node : NodeInfo) :
    Except String NodeInfo :=
  match env.unmarshalHysteria body with
  | Except.error e => Except.error ("decode v2ray params error: " ++ e)
  | Except.ok rsp =>
    Except.ok { node with DownMbps := rsp.DownMbps, UpMbps := rsp.UpMbps, HyObfs := rsp.Obfs }

/-- The `switch c.NodeType` of node.go:189-263. A type with no case leaves the
descriptor as it is. -/
def parseProtocol (env : Env) (c : Client) (body : List UInt8) (node : NodeInfo) :
    Except String NodeInfo :=
  if c.NodeType = "vmess" then parseVMess env c body node
  else if c.NodeType = "vless" then parseVLESS env c body node
  else if c.NodeType = "shadowsocks" then parseShadowsocks env body node
  else if c.NodeType = "trojan" then Except.ok { node with Tls := true }
  else if c.NodeType = "hysteria" then parseHysteria env body node
  else Except.ok node

/-- The common part of the descriptor (node.go:142-187): the route loop, then
the envelope fields, then the two intervals, pull before push. -/
def parseCommon (common : CommonNodeRsp) (node : NodeInfo) : Exec NodeInfo :=
  match interpretRoutes common.Routes node with
  | Exec.panic p => Exec.panic p
  | Exec.ret node1 =>
    let node2 := { node1 with
      ServerName := common.ServerName, Host := common.Host, Port := common.ServerPort }
    match intervalToTime common.BaseConfig.PullInterval with
    | Exec.panic p => Exec.panic p
    | Exec.ret pull =>
      match intervalToTime common.BaseConfig.PushInterval with
      | Exec.panic p => Exec.panic p
      | Exec.ret push => Exec.ret { node2 with PullInterval := pull, PushInterval := push }

/-- Go `GetNodeInfo` (node.go:115-266). `r` and `err` are what the GET carrying
`If-None-Match: c.nodeEtag` gave. -/
def GetNodeInfo (env : Env) (c : Client) (r : Response) (err : Option String) :
    Exec Returned :=
  match env.checkResponse r err with
  | some e => Exec.ret ⟨none, some e, c⟩
  | none =>
    if r.StatusCode = 304 then Exec.ret ⟨none, none, c⟩
    else
      match env.unmarshalCommon r.Body with
      | Except.error e => Exec.ret ⟨none, some ("decode common params error: " ++ e), c⟩
      | Except.ok common =>
        match parseCommon common (NodeInfo.init c.NodeId c.NodeType) with
        | Exec.panic p => Exec.panic p
        | Exec.ret node =>
          match parseProtocol env c r.Body node with
          | Except.error e => Exec.ret ⟨none, some e, c⟩
          | Except.ok node1 => Exec.ret ⟨some node1, none, { c with nodeEtag := r.ETag }⟩

/-! ## Specification-side definitions

Functions the statements below are phrased with; none of them is part of the
program. -/

/-- Value of a run of decimal digits read left to right, starting from `a`. -/
def decValue (cs : List Char) (a : Nat) : Nat :=
  cs.foldl (fun acc c => acc * 10 + (c.toNat - 48)) a

/-- The normalized match strings of the `block` routes, in route order. -/
def blockMatches : List Route → List String
  | [] => []
  | r :: rs =>
    (if r.Action = "block" then
      match matchsOf r.Match with
      | Exec.ret ms => ms
      | Exec.panic _ => []
    else []) ++ blockMatches rs

/-- The entries of `ms` that start with `protocol:`, each without that prefix. -/
def protocolOf (ms : List String) : List String :=
  (ms.filter (fun m => HasPrefix m "protocol:")).map (fun m => TrimPrefix m "protocol:")

/-- The entries of `ms` that do not start with `protocol:`, each without a
leading `regexp:`. -/
def regexpOf (ms : List String) : List String :=
  (ms.filter (fun m => !HasPrefix m "protocol:")).map (fun m => TrimPrefix m "regexp:")

/-- A route is a `dns` route whose first normalized match is `main`. -/
def isDnsMain (r : Route) : Prop :=
  r.Action = "dns" ∧ ∃ rest, matchsOf r.Match = Exec.ret ("main" :: rest)

/-- Truncation of a rational toward zero. -/
def truncToZero (q : ℚ) : Int :=
  if 0 ≤ q then ⌊q⌋ else ⌈q⌉

/-- A string is a decimal integer: an optional sign, then one or more decimal
digits and nothing else. -/
def isDecimalInteger (s : String) : Bool :=
  match s.data with
  | [] => false
  | c :: cs =>
    if c = '+' ∨ c = '-' then !cs.isEmpty && cs.all (fun d => decide ('0' ≤ d ∧ d ≤ '9'))
    else (c :: cs).all (fun d => decide ('0' ≤ d ∧ d ≤ '9'))

/-- Whether a character is a decimal digit. -/
def isDecDigit (c : Char) : Bool :=
  decide ('0' ≤ c ∧ c ≤ '9')

/-- The run of decimal digits a string starts with, after an optional `+`. -/
def leadingDigits (s : String) : List Char :=
  match s.data with
  | [] => []
  | c :: cs => if c = '+' then cs.takeWhile isDecDigit else (c :: cs).takeWhile isDecDigit

/-- The leading digits of the string, read as a number, exceed the largest
`uint64`. -/
def leadsBeyondUint64 (s : String) : Bool :=
  decide (decValue (leadingDigits s) 0 > maxUint64)

/-! ## Sample inputs -/

/-- A `dns` route led by `main`, then a `dns` route and a `block` route. -/
def routesAfterMain : List Route :=
  [ ⟨7, GoVal.list [GoVal.str "main", GoVal.str "\x7b\x7d"], "dns", ""⟩,
    ⟨8, GoVal.list [GoVal.str "a.com"], "dns", "1.1.1.1"⟩,
    ⟨9, GoVal.str "protocol:bittorrent", "block", ""⟩ ]

/-- The routes of scenario S3, followed by one more `dns` route. -/
def routesS3 : List Route :=
  [ ⟨0, GoVal.list [GoVal.str "example.com", GoVal.str "foo.com"], "dns", "1.1.1.1"⟩,
    ⟨1, GoVal.list [GoVal.str "main", GoVal.str "\x7b\"servers\":[]\x7d"], "dns", ""⟩,
    ⟨2, GoVal.str "a.com,b.com", "dns", "8.8.8.8"⟩ ]

/-- The routes of scenario S2. -/
def routesS2 : List Route :=
  [ ⟨1, GoVal.str "regexp:.*\\.ads\\.com,protocol:bittorrent", "block", ""⟩ ]

/-- The descriptor the route loop leaves for `routesS3`. -/
def nodeS3 : NodeInfo :=
  { NodeInfo.init 1 "vmess" with
    RawDNS :=
      { DNSMap := [("2", ⟨"8.8.8.8", ["a.com", "b.com"]⟩),
          ("0", ⟨"1.1.1.1", ["example.com", "foo.com"]⟩)]
        DNSJson := bytes "\x7b\"servers\":[]\x7d" } }

/-- The descriptor the route loop leaves for `routesS2`. -/
def nodeS2 : NodeInfo :=
  { NodeInfo.init 1 "vmess" with Rules := ⟨[".*\\.ads\\.com"], ["bittorrent"]⟩ }

/-- A common envelope with no routes and both intervals present. -/
def sampleCommon : CommonNodeRsp :=
  { Host := "h", ServerPort := 443, ServerName := "s", Routes := [],
    BaseConfig := ⟨GoVal.float64 ⟨60, 0⟩, GoVal.str "30"⟩ }

/-- A sample environment: the response check reports the transport error and
nothing else, the key derivation is the identity, every decoder accepts its
input and gives a fixed value. -/
def sampleEnv : Env :=
  { checkResponse := fun _ err => err
    GenX25519Private := fun seed => seed
    unmarshalCommon := fun _ => Except.ok sampleCommon
    unmarshalVMess := fun _ => Except.ok ⟨1, "tcp", []⟩
    unmarshalVLESS := fun _ => Except.ok ⟨"xtls-rprx-vision", 2, [], "tcp", []⟩
    unmarshalShadowsocks := fun _ => Except.ok ⟨"aes-128-gcm", "k=="⟩
    unmarshalHysteria := fun _ => Except.ok ⟨100, 200, "obfs"⟩
    unmarshalExtraConfig := fun _ => Except.ok ExtraConfig.zero
    unmarshalTlsSettings := fun _ => Except.ok ⟨"www.example.com", 443, "ab"⟩ }

/-- A `vmess` client with token `T`. -/
def vmessClient : Client := ⟨1, "vmess", "T", "old"⟩

/-- A `vless` client with token `T`. -/
def vlessClient : Client := ⟨1, "vless", "T", "old"⟩

/-- A 200 response with entity tag `abc`. -/
def sampleResponse : Response := ⟨200, [], "abc"⟩

/-- The sample environment with a route whose `match` is the number 5. -/
def envNumberMatch : Env :=
  { sampleEnv with
    unmarshalCommon := fun _ => Except.ok
      { sampleCommon with Routes := [⟨1, GoVal.float64 ⟨5, 0⟩, "block", ""⟩] } }

/-- The sample environment with `base_config` lacking `pull_interval`. -/
def envNoPullInterval : Env :=
  { sampleEnv with
    unmarshalCommon := fun _ => Except.ok
      { sampleCommon with BaseConfig := ⟨GoVal.float64 ⟨60, 0⟩, GoVal.nil⟩ } }

/-- The sample environment whose `network_settings` decode to Reality enabled
with no Reality configuration. -/
def envRealityNull : Env :=
  { sampleEnv with
    unmarshalExtraConfig := fun _ => Except.ok ⟨"", "", "true", none⟩ }

/-- A Reality configuration as the upstream may send it, private key included. -/
def upstreamReality : RealityConfig :=
  ⟨"example.com:443", "0", ["example.com"], "upstream-key", "", "", "", ["ab"]⟩

/-- The sample environment whose `network_settings` decode to Reality enabled
with `upstreamReality`. -/
def envRealitySet : Env :=
  { sampleEnv with
    unmarshalExtraConfig := fun _ => Except.ok ⟨"", "", "true", some upstreamReality⟩ }

/-- The descriptor common to the sample `vmess` runs, before `ExtraConfig`. -/
def vmessNode : NodeInfo :=
  { NodeInfo.init 1 "vmess" with
    ServerName := "s", Host := "h", Port := 443, Network := "tcp", Tls := true,
    PullInterval := 30 * Second, PushInterval := 60 * Second }

/-- The descriptor of the `vmess` run under `envRealityNull`. -/
def nodeRealityNull : NodeInfo :=
  { vmessNode with ExtraConfig := ⟨"", "", "false", none⟩ }

/-- The descriptor of the `vmess` run under `envRealitySet`. -/
def nodeRealitySet : NodeInfo :=
  { vmessNode with
    ExtraConfig := ⟨"", "", "true", some { upstreamReality with PrivateKey := "dm1lc3NU" }⟩ }

/-- The sample environment with another common envelope and other
`network_settings`, the key derivation unchanged. -/
def envRealityOther : Env :=
  { sampleEnv with
    unmarshalCommon := fun _ => Except.ok { sampleCommon with Host := "other", ServerPort := 8443 }
    unmarshalVMess := fun _ => Except.ok ⟨0, "ws", [1, 2, 3]⟩
    unmarshalExtraConfig := fun _ => Except.ok
      ⟨"true", "flow", "true", some { upstreamReality with PrivateKey := "another-key" }⟩ }

/-- The descriptor of the `vmess` run under `envRealityOther`. -/
def nodeRealityOther : NodeInfo :=
  { vmessNode with
    Host := "other", Port := 8443, Network := "ws", NetworkSettings := [1, 2, 3], Tls := false,
    ExtraConfig :=
      ⟨"true", "flow", "true", some { upstreamReality with PrivateKey := "dm1lc3NU" }⟩ }

/-- The descriptor of the sample runs for node type `ty` after the common part:
`sampleCommon` has no routes, a push interval of 60 and a pull interval of 30. -/
def commonNode (ty : String) : NodeInfo :=
  { NodeInfo.init 1 ty with
    ServerName := "s", Host := "h", Port := 443,
    PullInterval := 30 * Second, PushInterval := 60 * Second }

/-- The descriptor of scenario S1: `vless` with wire `tls` 2 under `sampleEnv`. -/
def nodeVlessReality : NodeInfo :=
  { commonNode "vless" with
    Network := "tcp", Tls := true, TlsSettings := ⟨"www.example.com", 443, "ab"⟩,
    ExtraConfig := ⟨"", "xtls-rprx-vision", "true",
      some ⟨"443", "", ["www.example.com"], "dmxlc3NU", "", "", "", ["ab"]⟩⟩ }

/-- The sample environment with a `vless` response whose wire `tls` is 1. -/
def envVlessTls1 : Env :=
  { sampleEnv with unmarshalVLESS := fun _ => Except.ok ⟨"flow", 1, [], "tcp", []⟩ }

/-- The descriptor of the `vless` run under `envVlessTls1`. -/
def nodeVlessTls1 : NodeInfo :=
  { commonNode "vless" with Network := "tcp", Tls := true }

/-- The sample environment with a `vmess` response whose wire `tls` is 0. -/
def envVMessTls0 : Env :=
  { sampleEnv with unmarshalVMess := fun _ => Except.ok ⟨0, "ws", []⟩ }

/-- A client of node type `ty` with token `T` and cached entity tag `old`. -/
def clientOf (ty : String) : Client := ⟨1, ty, "T", "old"⟩

/-- The descriptor of scenario S4: `shadowsocks` under `sampleEnv`. -/
def nodeShadowsocks : NodeInfo :=
  { commonNode "shadowsocks" with Cipher := "aes-128-gcm", ServerKey := "k==" }

/-- The descriptor of the `hysteria` run under `sampleEnv`. -/
def nodeHysteria : NodeInfo :=
  { commonNode "hysteria" with UpMbps := 100, DownMbps := 200, HyObfs := "obfs" }

/-- The sample environment with `server_port` set to `p`. -/
def envPort (p : Int) : Env :=
  { sampleEnv with unmarshalCommon := fun _ => Except.ok { sampleCommon with ServerPort := p } }

/-- The sample environment whose common envelope does not decode. -/
def envCommonError : Env :=
  { sampleEnv with unmarshalCommon := fun _ => Except.error "unexpected end of JSON input" }

/-- The sample environment whose `vmess` envelope does not decode. -/
def envVMessError : Env :=
  { sampleEnv with unmarshalVMess := fun _ => Except.error "tls is not a number" }

/-- The sample environment whose `network_settings` do not decode. -/
def envExtraError : Env :=
  { sampleEnv with unmarshalExtraConfig := fun _ => Except.error "unexpected end of JSON input" }

/-- The sample environment whose `tls_settings` do not decode. -/
def envTlsSettingsError : Env :=
  { sampleEnv with unmarshalTlsSettings := fun _ => Except.error "unexpected end of JSON input" }

/-- The sample environment with a `dns` route whose `match` is the empty
list. -/
def envEmptyDnsMatch : Env :=
  { sampleEnv with
    unmarshalCommon := fun _ => Except.ok
      { sampleCommon with Routes := [⟨1, GoVal.list [], "dns", "1.1.1.1"⟩] } }

/-! ## Basic facts -/

theorem digitChar_value (k : Nat) (hk : k < 10) : (Nat.digitChar k).toNat - 48 = k := by
  interval_cases k <;> rfl

theorem decValue_toDigitsCore (fuel : Nat) :
    ∀ (n : Nat) (ds : List Char), n < fuel →
      decValue (Nat.toDigitsCore 10 fuel n ds) 0 = decValue ds n := by
  induction fuel with
  | zero => intro n ds h; omega
  | succ fuel ih =>
    intro n ds h
    have hd : (Nat.digitChar (n % 10)).toNat - 48 = n % 10 :=
      digitChar_value _ (Nat.mod_lt _ (by decide))
    unfold Nat.toDigitsCore
    by_cases h0 : n / 10 = 0
    · simp only [h0, if_true]
      have h1 : n % 10 = n := Nat.mod_eq_of_lt (by omega)
      rw [h1] at hd
      simp only [decValue, List.foldl_cons, hd, Nat.zero_mul, Nat.zero_add, h1]
    · simp only [h0, if_false]
      rw [ih (n / 10) _ (by omega)]
      simp only [decValue, List.foldl_cons, hd]
      congr 1
      omega

theorem natRepr_injective : Function.Injective Nat.repr := by
  intro a b h
  have h1 : Nat.toDigits 10 a = Nat.toDigits 10 b := by
    have := congrArg String.data h
    simpa [Nat.repr, List.asString] using this
  have ha := decValue_toDigitsCore (a + 1) a [] (by omega)
  have hb := decValue_toDigitsCore (b + 1) b [] (by omega)
  simp only [Nat.toDigits] at h1
  rw [h1, hb] at ha
  simpa [decValue] using ha.symm

/-- Distinct route positions have distinct `DNSMap` keys. -/
theorem Itoa_ofNat_injective (a b : Nat) (h : Itoa (Int.ofNat a) = Itoa (Int.ofNat b)) :
    a = b :=
  natRepr_injective h

theorem MapGet_MapSet_same (m : List (String × DNSEntry)) (k : String) (v : DNSEntry) :
    MapGet (MapSet m k v) k = some v := by
  simp [MapGet, MapSet]

theorem MapGet_MapSet_other (m : List (String × DNSEntry)) (k k1 : String) (v : DNSEntry)
    (h : k1 ≠ k) : MapGet (MapSet m k v) k1 = MapGet m k1 := by
  have hk : (k == k1) = false := by simpa using fun e => h e.symm
  simp only [MapGet, MapSet, List.find?_cons, hk]
  congr 1
  induction m with
  | nil => rfl
  | cons x xs ih =>
    by_cases hx : x.1 = k
    · simp [List.filter_cons, hx, List.find?_cons, hk, ih]
    · by_cases h2 : x.1 = k1
      · simp [List.filter_cons, List.find?_cons, h2, h]
      · simp [List.filter_cons, hx, List.find?_cons, h2, ih]

/-! ## The route loop, step by step -/

/-- What one iteration of the route loop does, by case of the `switch`. -/
theorem routeStep_cases (i : Nat) (r : Route) (node n : NodeInfo)
    (h : routeStep i r node = Exec.ret n) :
    ∃ ms, matchsOf r.Match = Exec.ret ms ∧
      ((r.Action = "block" ∧ n = ms.foldl blockStep node) ∨
       (r.Action ≠ "block" ∧ r.Action = "dns" ∧ dnsCase i r.ActionValue ms node = Exec.ret n) ∨
       (r.Action ≠ "block" ∧ r.Action ≠ "dns" ∧ n = node)) := by
  unfold routeStep at h
  cases hm : matchsOf r.Match with
  | panic p => simp [hm] at h
  | ret ms =>
    refine ⟨ms, rfl, ?_⟩
    simp only [hm] at h
    by_cases hb : r.Action = "block"
    · left
      simp only [hb, if_true, Exec.ret.injEq] at h
      exact ⟨hb, h.symm⟩
    · right
      by_cases hd : r.Action = "dns"
      · left
        simp only [hb, hd, if_true, if_false] at h
        exact ⟨hb, hd, by simpa using h⟩
      · right
        simp only [hb, hd, if_false, Exec.ret.injEq] at h
        exact ⟨hb, hd, h.symm⟩

/-- The `block` loop appends to the two rule lists and changes nothing else. -/
theorem foldl_blockStep (ms : List String) :
    ∀ node : NodeInfo, ms.foldl blockStep node =
      { node with Rules :=
          ⟨node.Rules.Regexp ++ regexpOf ms, node.Rules.Protocol ++ protocolOf ms⟩ } := by
  induction ms with
  | nil => intro node; simp [regexpOf, protocolOf]
  | cons m ms ih =>
    intro node
    rw [List.foldl_cons, ih]
    by_cases hp : HasPrefix m "protocol:" = true
    · simp [blockStep, hp, regexpOf, protocolOf, List.filter_cons]
    · simp [blockStep, hp, regexpOf, protocolOf, List.filter_cons]

/-- The `dns` case, when it returns, has changed `RawDNS` only. -/
theorem dnsCase_cases (i : Nat) (av : String) (ms : List String) (node n : NodeInfo)
    (h : dnsCase i av ms node = Exec.ret n) :
    ∃ m0 rest, ms = m0 :: rest ∧
      ((m0 ≠ "main" ∧ n = { node with RawDNS := { node.RawDNS with
          DNSMap := MapSet node.RawDNS.DNSMap (Itoa (Int.ofNat i)) ⟨av, ms⟩ } }) ∨
       (m0 = "main" ∧ n = { node with RawDNS := { node.RawDNS with
          DNSJson := bytes (Join rest) } })) := by
  cases ms with
  | nil => simp [dnsCase] at h
  | cons m0 rest =>
    refine ⟨m0, rest, rfl, ?_⟩
    by_cases hm : m0 = "main"
    · right
      simp only [dnsCase, hm, ne_eq, not_true_eq_false, if_false, Exec.ret.injEq] at h
      exact ⟨hm, h.symm⟩
    · left
      simp only [dnsCase, hm, ne_eq, not_false_eq_true, if_true, Exec.ret.injEq] at h
      exact ⟨hm, h.symm⟩

theorem routesFrom_cons_ret (i : Nat) (r : Route) (rs : List Route) (node n : NodeInfo)
    (h : routesFrom i (r :: rs) node = Exec.ret n) :
    ∃ n1, routeStep i r node = Exec.ret n1 ∧ routesFrom (i + 1) rs n1 = Exec.ret n := by
  unfold routesFrom at h
  cases hs : routeStep i r node with
  | panic p => simp [hs] at h
  | ret n1 => exact ⟨n1, rfl, by simpa [hs] using h⟩

/-- An iteration changes `Rules` and `RawDNS` at most. -/
theorem routeStep_frame (i : Nat) (r : Route) (node n : NodeInfo)
    (h : routeStep i r node = Exec.ret n) :
    n = { node with Rules := n.Rules, RawDNS := n.RawDNS } := by
  obtain ⟨ms, -, hc⟩ := routeStep_cases i r node n h
  rcases hc with ⟨-, rfl⟩ | ⟨-, -, hd⟩ | ⟨-, -, rfl⟩
  · rw [foldl_blockStep]
  · obtain ⟨m0, rest, -, hc⟩ := dnsCase_cases i _ ms node n hd
    rcases hc with ⟨-, rfl⟩ | ⟨-, rfl⟩ <;> rfl
  · rfl

/-- The rule lists after one iteration. -/
theorem routeStep_rules (i : Nat) (r : Route) (node n : NodeInfo)
    (h : routeStep i r node = Exec.ret n) :
    n.Rules = ⟨node.Rules.Regexp ++ regexpOf (blockMatches [r]),
      node.Rules.Protocol ++ protocolOf (blockMatches [r])⟩ := by
  obtain ⟨ms, hm, hc⟩ := routeStep_cases i r node n h
  rcases hc with ⟨hb, rfl⟩ | ⟨hb, -, hd⟩ | ⟨hb, -, rfl⟩
  · rw [foldl_blockStep]
    simp [blockMatches, hb, hm]
  · obtain ⟨m0, rest, -, hc⟩ := dnsCase_cases i _ ms node n hd
    rcases hc with ⟨-, rfl⟩ | ⟨-, rfl⟩ <;>
      simp [blockMatches, hb, regexpOf, protocolOf]
  · simp [blockMatches, hb, regexpOf, protocolOf]

theorem regexpOf_append (xs ys : List String) :
    regexpOf (xs ++ ys) = regexpOf xs ++ regexpOf ys := by
  simp [regexpOf]

theorem protocolOf_append (xs ys : List String) :
    protocolOf (xs ++ ys) = protocolOf xs ++ protocolOf ys := by
  simp [protocolOf]

theorem blockMatches_cons (r : Route) (rs : List Route) :
    blockMatches (r :: rs) = blockMatches [r] ++ blockMatches rs := by
  simp [blockMatches]

/-- The rule lists after the whole loop. -/
theorem routesFrom_rules (rs : List Route) :
    ∀ (i : Nat) (node n : NodeInfo), routesFrom i rs node = Exec.ret n →
      n.Rules = ⟨node.Rules.Regexp ++ regexpOf (blockMatches rs),
        node.Rules.Protocol ++ protocolOf (blockMatches rs)⟩ := by
  induction rs with
  | nil =>
    intro i node n h
    simp only [routesFrom, Exec.ret.injEq] at h
    subst h
    simp [blockMatches, regexpOf, protocolOf]
  | cons r rs ih =>
    intro i node n h
    obtain ⟨n1, h1, h2⟩ := routesFrom_cons_ret i r rs node n h
    rw [ih _ _ _ h2, routeStep_rules i r node n1 h1, blockMatches_cons r rs,
      regexpOf_append, protocolOf_append]
    simp

/-- The loop changes `Rules` and `RawDNS` at most. -/
theorem routesFrom_frame (rs : List Route) :
    ∀ (i : Nat) (node n : NodeInfo), routesFrom i rs node = Exec.ret n →
      n = { node with Rules := n.Rules, RawDNS := n.RawDNS } := by
  induction rs with
  | nil =>
    intro i node n h
    simp only [routesFrom, Exec.ret.injEq] at h
    subst h
    rfl
  | cons r rs ih =>
    intro i node n h
    obtain ⟨n1, h1, h2⟩ := routesFrom_cons_ret i r rs node n h
    have e2 := ih _ _ _ h2
    have e1 := routeStep_frame i r node n1 h1
    rw [e2, e1]

theorem length_regexpOf_add_protocolOf (ms : List String) :
    (regexpOf ms).length + (protocolOf ms).length = ms.length := by
  induction ms with
  | nil => rfl
  | cons m ms ih =>
    by_cases hp : HasPrefix m "protocol:" = true
    · simp [regexpOf, protocolOf, List.filter_cons, hp] at ih ⊢
      omega
    · simp [regexpOf, protocolOf, List.filter_cons, hp] at ih ⊢
      omega

/-- `DNSJson` after one iteration: set by a `dns` route led by `main`, kept by
any other route. -/
theorem routeStep_json (i : Nat) (r : Route) (node n : NodeInfo)
    (h : routeStep i r node = Exec.ret n) :
    (¬ isDnsMain r → n.RawDNS.DNSJson = node.RawDNS.DNSJson) ∧
    (∀ rest, r.Action = "dns" → matchsOf r.Match = Exec.ret ("main" :: rest) →
      n.RawDNS.DNSJson = bytes (Join rest)) := by
  obtain ⟨ms, hm, hc⟩ := routeStep_cases i r node n h
  rcases hc with ⟨hb, rfl⟩ | ⟨hb, hdns, hd⟩ | ⟨hb, hnd, rfl⟩
  · constructor
    · intro _; rw [foldl_blockStep]
    · intro rest ha; rw [hb] at ha; exact absurd ha (by decide)
  · obtain ⟨m0, rest0, hms, hc⟩ := dnsCase_cases i _ ms node n hd
    rcases hc with ⟨h0, rfl⟩ | ⟨h0, rfl⟩
    · constructor
      · intro _; rfl
      · intro rest _ hm2
        rw [hm, hms] at hm2
        simp only [Exec.ret.injEq, List.cons.injEq] at hm2
        exact absurd hm2.1 h0
    · constructor
      · intro hn
        exact absurd ⟨hdns, rest0, by rw [hm, hms, h0]⟩ hn
      · intro rest _ hm2
        rw [hm, hms] at hm2
        simp only [Exec.ret.injEq, List.cons.injEq] at hm2
        rw [← hm2.2]
  · constructor
    · intro _; rfl
    · intro rest ha; exact absurd ha hnd

/-- An iteration at index `i` leaves every other position's key alone. -/
theorem routeStep_map_other (i m : Nat) (r : Route) (node n : NodeInfo)
    (h : routeStep i r node = Exec.ret n) (hne : m ≠ i) :
    MapGet n.RawDNS.DNSMap (Itoa (Int.ofNat m)) =
      MapGet node.RawDNS.DNSMap (Itoa (Int.ofNat m)) := by
  obtain ⟨ms, hm, hc⟩ := routeStep_cases i r node n h
  rcases hc with ⟨hb, rfl⟩ | ⟨hb, hdns, hd⟩ | ⟨hb, hnd, rfl⟩
  · rw [foldl_blockStep]
  · obtain ⟨m0, rest0, hms, hc⟩ := dnsCase_cases i _ ms node n hd
    rcases hc with ⟨h0, rfl⟩ | ⟨h0, rfl⟩
    · exact MapGet_MapSet_other _ _ _ _ (fun e => hne (Itoa_ofNat_injective _ _ e))
    · rfl
  · rfl

/-- A `dns` route not led by `main` stores its record under its position. -/
theorem routeStep_dns (i : Nat) (r : Route) (node : NodeInfo) (m0 : String)
    (ms : List String) (hdns : r.Action = "dns")
    (hm : matchsOf r.Match = Exec.ret (m0 :: ms)) (h0 : m0 ≠ "main") :
    routeStep i r node = Exec.ret { node with RawDNS := { node.RawDNS with
      DNSMap := MapSet node.RawDNS.DNSMap (Itoa (Int.ofNat i)) ⟨r.ActionValue, m0 :: ms⟩ } } := by
  have hb : r.Action ≠ "block" := by rw [hdns]; decide
  simp [routeStep, hm, hb, hdns, dnsCase, h0]

/-- Keys of positions before the loop's start index are not touched. -/
theorem routesFrom_map_below (rs : List Route) :
    ∀ (i m : Nat) (node n : NodeInfo), routesFrom i rs node = Exec.ret n → m < i →
      MapGet n.RawDNS.DNSMap (Itoa (Int.ofNat m)) =
        MapGet node.RawDNS.DNSMap (Itoa (Int.ofNat m)) := by
  induction rs with
  | nil =>
    intro i m node n h _
    simp only [routesFrom, Exec.ret.injEq] at h
    subst h
    rfl
  | cons r rs ih =>
    intro i m node n h hlt
    obtain ⟨n1, h1, h2⟩ := routesFrom_cons_ret i r rs node n h
    rw [ih _ m _ _ h2 (by omega), routeStep_map_other i m r node n1 h1 (by omega)]

/-- Each `dns` route not led by `main` is in the final `DNSMap` under its
position. -/
theorem routesFrom_map (rs : List Route) :
    ∀ (i : Nat) (node n : NodeInfo), routesFrom i rs node = Exec.ret n →
      ∀ (j : Nat) (rj : Route) (m0 : String) (ms : List String), rs[j]? = some rj →
        rj.Action = "dns" → matchsOf rj.Match = Exec.ret (m0 :: ms) → m0 ≠ "main" →
        MapGet n.RawDNS.DNSMap (Itoa (Int.ofNat (i + j))) =
          some ⟨rj.ActionValue, m0 :: ms⟩ := by
  induction rs with
  | nil => intro i node n _ j rj m0 ms hj; simp at hj
  | cons r rs ih =>
    intro i node n h j rj m0 ms hj hdns hm h0
    obtain ⟨n1, h1, h2⟩ := routesFrom_cons_ret i r rs node n h
    cases j with
    | zero =>
      simp only [List.getElem?_cons_zero, Option.some.injEq] at hj
      subst hj
      rw [routeStep_dns i r node m0 ms hdns hm h0] at h1
      simp only [Exec.ret.injEq] at h1
      rw [Nat.add_zero, routesFrom_map_below rs (i + 1) i n1 n h2 (by omega), ← h1]
      exact MapGet_MapSet_same _ _ _
    | succ j =>
      simp only [List.getElem?_cons_succ] at hj
      have := ih (i + 1) n1 n h2 j rj m0 ms hj hdns hm h0
      rw [show i + (j + 1) = i + 1 + j by omega]
      exact this

/-- Routes none of which is a `dns` route led by `main` leave `DNSJson` alone. -/
theorem routesFrom_json_keep (rs : List Route) :
    ∀ (i : Nat) (node n : NodeInfo), routesFrom i rs node = Exec.ret n →
      (∀ r ∈ rs, ¬ isDnsMain r) → n.RawDNS.DNSJson = node.RawDNS.DNSJson := by
  induction rs with
  | nil =>
    intro i node n h _
    simp only [routesFrom, Exec.ret.injEq] at h
    subst h
    rfl
  | cons r rs ih =>
    intro i node n h hno
    obtain ⟨n1, h1, h2⟩ := routesFrom_cons_ret i r rs node n h
    rw [ih _ _ _ h2 (fun x hx => hno x (List.mem_cons_of_mem _ hx)),
      (routeStep_json i r node n1 h1).1 (hno r (List.mem_cons_self _ _))]

/-- With a single `dns` route led by `main`, at position `k`, the final
`DNSJson` is the one that route sets. -/
theorem routesFrom_json (rs : List Route) :
    ∀ (i : Nat) (node n : NodeInfo), routesFrom i rs node = Exec.ret n →
      ∀ (k : Nat) (rk : Route) (rest : List String), rs[k]? = some rk →
        rk.Action = "dns" → matchsOf rk.Match = Exec.ret ("main" :: rest) →
        (∀ (j : Nat) (rj : Route), rs[j]? = some rj → isDnsMain rj → j = k) →
        n.RawDNS.DNSJson = bytes (Join rest) := by
  induction rs with
  | nil => intro i node n _ k rk rest hk; simp at hk
  | cons r rs ih =>
    intro i node n h k rk rest hk hdns hm huniq
    obtain ⟨n1, h1, h2⟩ := routesFrom_cons_ret i r rs node n h
    cases k with
    | zero =>
      simp only [List.getElem?_cons_zero, Option.some.injEq] at hk
      subst hk
      have hkeep : ∀ x ∈ rs, ¬ isDnsMain x := by
        intro x hx hmain
        obtain ⟨j, hj⟩ := List.getElem?_of_mem hx
        have := huniq (j + 1) x (by simpa using hj) hmain
        omega
      rw [routesFrom_json_keep rs _ _ _ h2 hkeep]
      exact (routeStep_json i r node n1 h1).2 rest hdns hm
    | succ k =>
      simp only [List.getElem?_cons_succ] at hk
      refine ih _ _ _ h2 k rk rest hk hdns hm ?_
      intro j rj hj hmain
      have := huniq (j + 1) rj (by simpa using hj) hmain
      omega

theorem HasPrefix_append_TrimPrefix (m p : String) (h : HasPrefix m p = true) :
    p ++ TrimPrefix m p = m := by
  have hp : p.data <+: m.data := List.isPrefixOf_iff_prefix.mp h
  obtain ⟨t, ht⟩ := hp
  apply String.ext
  simp only [TrimPrefix, h, if_true, String.data_append]
  rw [← ht]
  simp

theorem TrimPrefix_of_not_HasPrefix (m p : String) (h : HasPrefix m p = false) :
    TrimPrefix m p = m := by
  simp [TrimPrefix, h]

/-! ## Facts about `strconv`, durations and `float64` -/

theorem wrap64_of_range (z : Int) (h1 : -(2:Int) ^ 63 ≤ z) (h2 : z < 2 ^ 63) : wrap64 z = z := by
  unfold wrap64
  omega

theorem wrap64_seconds (n : Int) (h : |n| ≤ 9223372036) : wrap64 (n * Second) = n * Second := by
  have := abs_le.mp h
  apply wrap64_of_range <;> unfold Second <;> omega

theorem digitChar_isDigit (k : Nat) (hk : k < 10) :
    '0' ≤ Nat.digitChar k ∧ Nat.digitChar k ≤ '9' := by
  interval_cases k <;> decide

theorem digitChar_value0 (k : Nat) (hk : k < 10) :
    (Nat.digitChar k).toNat - '0'.toNat = k := by
  interval_cases k <;> rfl

theorem parseUintLoop_toDigitsCore (fuel : Nat) :
    ∀ (n : Nat) (ds : List Char), n < fuel → n ≤ maxUint64 →
      parseUintLoop (Nat.toDigitsCore 10 fuel n ds) 0 = parseUintLoop ds n := by
  induction fuel with
  | zero => intro n ds h; omega
  | succ fuel ih =>
    intro n ds h hmax
    have hlt : n % 10 < 10 := Nat.mod_lt _ (by decide)
    have hd := digitChar_isDigit _ hlt
    have hv := digitChar_value0 _ hlt
    have hmax' : n ≤ 18446744073709551615 := hmax
    unfold Nat.toDigitsCore
    by_cases h0 : n / 10 = 0
    · simp only [h0, if_true]
      have h1 : n % 10 = n := Nat.mod_eq_of_lt (by omega)
      rw [h1] at hd hv
      rw [h1]
      have hc : ¬ (0 ≥ maxUint64 / 10 + 1) := by decide
      have hn : ¬ (n > maxUint64) := by omega
      simp only [parseUintLoop, hd, and_self, if_true, hc, if_false, hv, Nat.zero_mul,
        Nat.zero_add, hn]
    · simp only [h0, if_false]
      rw [ih (n / 10) _ (by omega) (by unfold maxUint64; omega)]
      have hc : ¬ (n / 10 ≥ maxUint64 / 10 + 1) := by
        have : maxUint64 / 10 + 1 = 1844674407370955162 := by decide
        rw [this]; omega
      have he : n / 10 * 10 + n % 10 = n := by omega
      have hn : ¬ (n > maxUint64) := by omega
      simp only [parseUintLoop, hd, and_self, if_true, hc, if_false, hv, he, hn]

theorem toDigitsCore_head (fuel : Nat) :
    ∀ (n : Nat) (c0 : Char) (cs0 : List Char), ('0' ≤ c0 ∧ c0 ≤ '9') →
      ∃ c cs, Nat.toDigitsCore 10 fuel n (c0 :: cs0) = c :: cs ∧ ('0' ≤ c ∧ c ≤ '9') := by
  induction fuel with
  | zero => intro n c0 cs0 h; exact ⟨c0, cs0, rfl, h⟩
  | succ fuel ih =>
    intro n c0 cs0 h
    unfold Nat.toDigitsCore
    by_cases h0 : n / 10 = 0
    · simp only [h0, if_true]
      exact ⟨_, _, rfl, digitChar_isDigit _ (Nat.mod_lt _ (by decide))⟩
    · simp only [h0, if_false]
      exact ih _ _ _ (digitChar_isDigit _ (Nat.mod_lt _ (by decide)))

theorem toDigits_head (n : Nat) :
    ∃ c cs, Nat.toDigits 10 n = c :: cs ∧ ('0' ≤ c ∧ c ≤ '9') := by
  unfold Nat.toDigits Nat.toDigitsCore
  by_cases h0 : n / 10 = 0
  · simp only [h0, if_true]
    exact ⟨_, _, rfl, digitChar_isDigit _ (Nat.mod_lt _ (by decide))⟩
  · simp only [h0, if_false]
    exact toDigitsCore_head _ _ _ _ (digitChar_isDigit _ (Nat.mod_lt _ (by decide)))

theorem ParseUint_toDigits (n : Nat) (h : n ≤ maxUint64) :
    ParseUint (Nat.toDigits 10 n) = (n, none) := by
  obtain ⟨c, cs, hcs, -⟩ := toDigits_head n
  have hl : parseUintLoop (Nat.toDigits 10 n) 0 = (n, none) := by
    unfold Nat.toDigits
    rw [parseUintLoop_toDigitsCore (n + 1) n [] (by omega) h]
    rfl
  rw [hcs] at hl ⊢
  simpa [ParseUint] using hl

/-- `Atoi` reads back what `Itoa` writes, over the whole `int` range. -/
theorem Atoi_Itoa (k : Int) (h1 : -(2 : Int) ^ 63 ≤ k) (h2 : k < 2 ^ 63) :
    Atoi (Itoa k) = (k, none) := by
  cases k with
  | ofNat n =>
    have hn : n < 2 ^ 63 := by
      have : (n : Int) < 2 ^ 63 := h2
      exact_mod_cast this
    obtain ⟨c, cs, hcs, hc⟩ := toDigits_head n
    have hp := ParseUint_toDigits n (by unfold maxUint64; omega)
    have hdata : (Itoa (Int.ofNat n)).data = c :: cs := by
      simp [Itoa, Nat.repr, List.asString, hcs]
    have hplus : c ≠ '+' := by
      intro e; rw [e] at hc; exact absurd hc (by decide)
    have hminus : c ≠ '-' := by
      intro e; rw [e] at hc; exact absurd hc (by decide)
    unfold Atoi
    rw [hdata]
    simp only [hplus, hminus, if_false]
    rw [← hcs]
    have hge : ¬ (n ≥ 2 ^ 63) := by omega
    simp [parseIntSigned, hp]
    omega
  | negSucc n =>
    have hn : n + 1 ≤ 2 ^ 63 := by
      have : -(2 : Int) ^ 63 ≤ Int.negSucc n := h1
      rw [Int.negSucc_eq] at this
      omega
    have hp := ParseUint_toDigits (n + 1) (by unfold maxUint64; omega)
    have hdata : (Itoa (Int.negSucc n)).data = '-' :: Nat.toDigits 10 (n + 1) := by
      simp [Itoa, Nat.repr, List.asString]
    unfold Atoi
    rw [hdata]
    have hpm : ('-' : Char) ≠ '+' := by decide
    simp only [hpm, if_false, if_true]
    have hgt : ¬ (n + 1 > 2 ^ 63) := by omega
    simp [parseIntSigned, hp, Int.negSucc_eq]
    omega

theorem digit_toNat_le (c : Char) (h : '0' ≤ c ∧ c ≤ '9') : c.toNat - '0'.toNat ≤ 9 := by
  have h2 : c.val.toNat ≤ ('9' : Char).val.toNat := by
    have := h.2
    rw [Char.le_def, UInt32.le_def] at this
    exact this
  have h9 : ('9' : Char).val.toNat = 57 := by decide
  have h0 : ('0' : Char).toNat = 48 := by decide
  show c.val.toNat - ('0' : Char).toNat ≤ 9
  omega

theorem parseUintLoop_bad (cs : List Char) :
    ∀ (n j : Nat), n < 10 ^ j → j + cs.length ≤ 19 →
      cs.all (fun d => decide ('0' ≤ d ∧ d ≤ '9')) = false →
      parseUintLoop cs n = (0, some NumError.ErrSyntax) := by
  induction cs with
  | nil => intro n j _ _ h; simp at h
  | cons c cs ih =>
    intro n j hn hj hall
    by_cases hc : '0' ≤ c ∧ c ≤ '9'
    · have hd := digit_toNat_le c hc
      have hall' : cs.all (fun d => decide ('0' ≤ d ∧ d ≤ '9')) = false := by
        simpa [List.all_cons, hc] using hall
      have hj18 : j ≤ 18 := by simp only [List.length_cons] at hj; omega
      have hp : 10 ^ j ≤ 10 ^ 18 := Nat.pow_le_pow_right (by decide) hj18
      have hs : 10 ^ (j + 1) = 10 ^ j * 10 := pow_succ 10 j
      have h18 : (10 : Nat) ^ 18 = 1000000000000000000 := by norm_num
      have hcut : maxUint64 / 10 + 1 = 1844674407370955162 := by decide
      have hmax : maxUint64 = 18446744073709551615 := by decide
      have h1 : ¬ (n ≥ maxUint64 / 10 + 1) := by rw [hcut]; omega
      have h2 : ¬ (n * 10 + (c.toNat - '0'.toNat) > maxUint64) := by rw [hmax]; omega
      have := ih (n * 10 + (c.toNat - '0'.toNat)) (j + 1) (by rw [hs]; omega)
        (by simp only [List.length_cons] at hj; omega) hall'
      simp only [parseUintLoop, hc, and_self, if_true, h1, if_false, h2, this]
    · simp only [parseUintLoop, hc, if_false]

theorem ParseUint_bad (cs : List Char) (hlen : cs.length ≤ 19)
    (h : cs = [] ∨ cs.all (fun d => decide ('0' ≤ d ∧ d ≤ '9')) = false) :
    ParseUint cs = (0, some NumError.ErrSyntax) := by
  cases cs with
  | nil => rfl
  | cons c cs =>
    have hall := h.resolve_left (by simp)
    simpa [ParseUint] using parseUintLoop_bad (c :: cs) 0 0 (by decide) (by simpa using hlen) hall

theorem parseIntSigned_bad (neg : Bool) (cs : List Char)
    (h : ParseUint cs = (0, some NumError.ErrSyntax)) :
    parseIntSigned neg cs = (0, some NumError.ErrSyntax) := by
  simp [parseIntSigned, h]

/-- A string of at most 19 characters that is not a decimal integer is a syntax
error for `Atoi`, with value 0. -/
theorem Atoi_bad (s : String) (hlen : s.length ≤ 19) (h : isDecimalInteger s = false) :
    Atoi s = (0, some NumError.ErrSyntax) := by
  have hl : s.data.length ≤ 19 := hlen
  unfold isDecimalInteger at h
  unfold Atoi
  cases hd : s.data with
  | nil => rfl
  | cons c cs =>
    rw [hd] at h hl
    simp only [List.length_cons] at hl
    simp only at h ⊢
    by_cases hp : c = '+'
    · simp only [hp, true_or, if_true] at h ⊢
      apply parseIntSigned_bad
      apply ParseUint_bad cs (by omega)
      cases cs with
      | nil => left; rfl
      | cons d ds => right; simpa using h
    · by_cases hm : c = '-'
      · have hmp : ('-' : Char) ≠ '+' := by decide
        simp only [hm, or_true, if_true, hmp, if_false] at h ⊢
        apply parseIntSigned_bad
        apply ParseUint_bad cs (by omega)
        cases cs with
        | nil => left; rfl
        | cons d ds => right; simpa using h
      · simp only [hp, hm, or_self, if_false] at h ⊢
        apply parseIntSigned_bad
        exact ParseUint_bad (c :: cs) (by simpa using hl) (Or.inr h)

theorem Float64_trunc (f : Float64) :
    (if 0 ≤ f.e then f.m * 2 ^ f.e.toNat else Int.tdiv f.m (2 ^ (-f.e).toNat)) =
      truncToZero f.toRat := by
  by_cases he : 0 ≤ f.e
  · have hq : f.toRat = ((f.m * 2 ^ f.e.toNat : Int) : ℚ) := by
      unfold Float64.toRat
      have : f.e = (f.e.toNat : Int) := (Int.toNat_of_nonneg he).symm
      conv_lhs => rw [this, zpow_natCast]
      push_cast
      rfl
    simp only [he, if_true, truncToZero, hq]
    split_ifs
    · exact (Int.floor_intCast _).symm
    · exact (Int.ceil_intCast _).symm
  · have hk : f.e = -((-f.e).toNat : Int) := by
      rw [Int.toNat_of_nonneg (by omega)]; omega
    have hq : f.toRat = (f.m : ℚ) / ((2 ^ (-f.e).toNat : Nat) : ℚ) := by
      unfold Float64.toRat
      conv_lhs => rw [hk, zpow_neg, zpow_natCast]
      push_cast
      rw [div_eq_mul_inv]
    have hdpos : (0 : ℚ) < ((2 ^ (-f.e).toNat : Nat) : ℚ) := by positivity
    have hdz : (0 : Int) ≤ ((2 ^ (-f.e).toNat : Nat) : Int) := by positivity
    have hcast : ((2 : Int) ^ (-f.e).toNat) = ((2 ^ (-f.e).toNat : Nat) : Int) := by simp
    simp only [he, if_false, truncToZero, hq, hcast]
    by_cases hm : 0 ≤ f.m
    · have : (0 : ℚ) ≤ (f.m : ℚ) / ((2 ^ (-f.e).toNat : Nat) : ℚ) :=
        div_nonneg (by exact_mod_cast hm) hdpos.le
      rw [if_pos this, Rat.floor_intCast_div_natCast, Int.tdiv_eq_ediv hm hdz]
    · have hneg : ¬ (0 : ℚ) ≤ (f.m : ℚ) / ((2 ^ (-f.e).toNat : Nat) : ℚ) := by
        rw [not_le]
        exact div_neg_of_neg_of_pos (by exact_mod_cast (by omega : f.m < 0)) hdpos
      rw [if_neg hneg]
      have h1 : (f.m : ℚ) / ((2 ^ (-f.e).toNat : Nat) : ℚ) =
          -(((-f.m : Int) : ℚ) / ((2 ^ (-f.e).toNat : Nat) : ℚ)) := by
        push_cast; ring
      rw [h1, Int.ceil_neg, Rat.floor_intCast_div_natCast,
        ← Int.tdiv_eq_ediv (by omega) hdz, Int.neg_tdiv, neg_neg]

/-! ## Claims about the route loop -/

/-- C1 (evaluation at the failing input). On `routesAfterMain`, whose route 0 is
a `dns` route led by `main`, the loop goes on: the result holds the `DNSMap`
entry of route 1 and the protocol rule of route 2, and the result for the
list cut after route 0 holds neither. -/
theorem main_route_does_not_end_loop :
    ∃ full cut : NodeInfo,
      interpretRoutes routesAfterMain (NodeInfo.init 1 "vmess") = Exec.ret full ∧
      interpretRoutes (routesAfterMain.take 1) (NodeInfo.init 1 "vmess") = Exec.ret cut ∧
      MapGet full.RawDNS.DNSMap "1" = some ⟨"1.1.1.1", ["a.com"]⟩ ∧
      MapGet cut.RawDNS.DNSMap "1" = none ∧
      full.Rules.Protocol = ["bittorrent"] ∧
      cut.Rules.Protocol = [] ∧
      full.RawDNS.DNSJson = cut.RawDNS.DNSJson :=
  ⟨_, _, rfl, rfl, by decide, by decide, by decide, by decide, by decide⟩

/-- C2. When the route loop returns and exactly one `dns` route, at position
`k`, has a normalized match list led by `main`, the resulting `DNSJson` is the
bytes of the concatenation of that route's remaining matches, and every `dns`
route whose first match is not `main`, at any position `j`, is in the resulting
`DNSMap` under `Itoa j` with its record. -/
theorem dns_main_json_and_map (routes : List Route) (node n : NodeInfo) (k : Nat)
    (rk : Route) (rest : List String)
    (hret : interpretRoutes routes node = Exec.ret n)
    (hk : routes[k]? = some rk) (hdns : rk.Action = "dns")
    (hmain : matchsOf rk.Match = Exec.ret ("main" :: rest))
    (huniq : ∀ (j : Nat) (rj : Route), routes[j]? = some rj → isDnsMain rj → j = k) :
    n.RawDNS.DNSJson = bytes (Join rest) ∧
    ∀ (j : Nat) (rj : Route) (m0 : String) (ms : List String), routes[j]? = some rj →
      rj.Action = "dns" → matchsOf rj.Match = Exec.ret (m0 :: ms) → m0 ≠ "main" →
      MapGet n.RawDNS.DNSMap (Itoa (Int.ofNat j)) = some ⟨rj.ActionValue, m0 :: ms⟩ := by
  refine ⟨routesFrom_json routes 0 node n hret k rk rest hk hdns hmain huniq, ?_⟩
  intro j rj m0 ms hj hd hm h0
  have := routesFrom_map routes 0 node n hret j rj m0 ms hj hd hm h0
  simpa using this

/-- C2 at `routesS3`: route 1 is the one led by `main`; routes 0 and 2, before
and after it, are both in `DNSMap`. -/
theorem dns_main_json_and_map_witness :
    interpretRoutes routesS3 (NodeInfo.init 1 "vmess") = Exec.ret nodeS3 ∧
    nodeS3.RawDNS.DNSJson = bytes "\x7b\"servers\":[]\x7d" ∧
    MapGet nodeS3.RawDNS.DNSMap "0" = some ⟨"1.1.1.1", ["example.com", "foo.com"]⟩ ∧
    MapGet nodeS3.RawDNS.DNSMap "2" = some ⟨"8.8.8.8", ["a.com", "b.com"]⟩ := by
  have huniq : ∀ (j : Nat) (rj : Route), routesS3[j]? = some rj → isDnsMain rj → j = 1 := by
    intro j rj hj hm
    obtain ⟨-, rest, hrest⟩ := hm
    match j, hj with
    | 0, hj =>
      simp only [routesS3, List.getElem?_cons_zero, Option.some.injEq] at hj
      subst hj
      simp [matchsOf, assertStrings, assertString] at hrest
    | 1, _ => rfl
    | 2, hj =>
      simp only [routesS3, List.getElem?_cons_succ, List.getElem?_cons_zero,
        Option.some.injEq] at hj
      subst hj
      have h2 : Split "a.com,b.com" ',' = ["a.com", "b.com"] := by decide
      simp [matchsOf, h2] at hrest
    | j + 3, hj => simp [routesS3] at hj
  have h := dns_main_json_and_map routesS3 (NodeInfo.init 1 "vmess") nodeS3 1
    ⟨1, GoVal.list [GoVal.str "main", GoVal.str "\x7b\"servers\":[]\x7d"], "dns", ""⟩
    ["\x7b\"servers\":[]\x7d"] rfl rfl rfl rfl huniq
  refine ⟨rfl, h.1, ?_, ?_⟩
  · exact h.2 0 _ "example.com" ["foo.com"] rfl rfl rfl (by decide)
  · exact h.2 2 _ "a.com" ["b.com"] rfl rfl rfl (by decide)

/-- C3. In a `block` route every normalized match `m` is handled by one
`blockStep`, which lengthens exactly one of `Rules.Regexp` and `Rules.Protocol`
by one element and leaves the other as it was; `m` goes to `Rules.Protocol`
exactly when it starts with `protocol:`. When the route loop returns, the two
lists together have as many elements as the `block` routes have normalized
matches. -/
theorem block_rule_partition (routes : List Route) (id : Int) (ty : String) (n : NodeInfo)
    (hret : interpretRoutes routes (NodeInfo.init id ty) = Exec.ret n) :
    (∀ (i : Nat) (r : Route) (ms : List String) (node : NodeInfo), r.Action = "block" →
      matchsOf r.Match = Exec.ret ms → routeStep i r node = Exec.ret (ms.foldl blockStep node)) ∧
    (∀ (node : NodeInfo) (m : String),
      (HasPrefix m "protocol:" = true ∧
        (blockStep node m).Rules.Protocol = node.Rules.Protocol ++ [TrimPrefix m "protocol:"] ∧
        (blockStep node m).Rules.Protocol.length = node.Rules.Protocol.length + 1 ∧
        (blockStep node m).Rules.Regexp = node.Rules.Regexp) ∨
      (HasPrefix m "protocol:" = false ∧
        (blockStep node m).Rules.Regexp = node.Rules.Regexp ++ [TrimPrefix m "regexp:"] ∧
        (blockStep node m).Rules.Regexp.length = node.Rules.Regexp.length + 1 ∧
        (blockStep node m).Rules.Protocol = node.Rules.Protocol)) ∧
    n.Rules.Regexp.length + n.Rules.Protocol.length = (blockMatches routes).length := by
  refine ⟨?_, ?_, ?_⟩
  · intro i r ms node hb hm
    simp [routeStep, hm, hb]
  · intro node m
    by_cases hp : HasPrefix m "protocol:" = true
    · left; simp [blockStep, hp]
    · right; simp [blockStep, hp]
  · have h := routesFrom_rules routes 0 _ n hret
    rw [h]
    simpa [NodeInfo.init] using length_regexpOf_add_protocolOf (blockMatches routes)

/-- C3 at `routesS2`: two matches, one to each list. -/
theorem block_rule_partition_witness :
    interpretRoutes routesS2 (NodeInfo.init 1 "vmess") = Exec.ret nodeS2 ∧
    nodeS2.Rules.Regexp.length + nodeS2.Rules.Protocol.length = 2 ∧
    (blockMatches routesS2).length = 2 := by
  have h := block_rule_partition routesS2 1 "vmess" nodeS2 rfl
  exact ⟨rfl, by decide, by rw [← h.2.2]; decide⟩

/-- C4. When the route loop returns, `Rules.Protocol` is the list, in order and
with repeats, of the `block` matches that start with `protocol:`, each without
that prefix, and `Rules.Regexp` is the list of the other `block` matches, each
without one leading `regexp:` when it has one and unchanged otherwise. -/
theorem rules_content (routes : List Route) (id : Int) (ty : String) (n : NodeInfo)
    (hret : interpretRoutes routes (NodeInfo.init id ty) = Exec.ret n) :
    n.Rules.Protocol =
      ((blockMatches routes).filter (fun m => HasPrefix m "protocol:")).map
        (fun m => TrimPrefix m "protocol:") ∧
    n.Rules.Regexp =
      ((blockMatches routes).filter (fun m => !HasPrefix m "protocol:")).map
        (fun m => TrimPrefix m "regexp:") ∧
    (∀ m : String, HasPrefix m "protocol:" = true →
      "protocol:" ++ TrimPrefix m "protocol:" = m) ∧
    (∀ m : String, HasPrefix m "regexp:" = true → "regexp:" ++ TrimPrefix m "regexp:" = m) ∧
    (∀ m : String, HasPrefix m "regexp:" = false → TrimPrefix m "regexp:" = m) := by
  have h := routesFrom_rules routes 0 _ n hret
  refine ⟨?_, ?_, fun m hm => HasPrefix_append_TrimPrefix m _ hm,
    fun m hm => HasPrefix_append_TrimPrefix m _ hm,
    fun m hm => TrimPrefix_of_not_HasPrefix m _ hm⟩
  · rw [h]; simp [NodeInfo.init, protocolOf]
  · rw [h]; simp [NodeInfo.init, regexpOf]

/-- C4 at scenario S2: the match `regexp:.*\\.ads\\.com,protocol:bittorrent`
gives `Regexp = [".*\\.ads\\.com"]` and `Protocol = ["bittorrent"]`. -/
theorem rules_content_witness :
    interpretRoutes routesS2 (NodeInfo.init 1 "vmess") = Exec.ret nodeS2 ∧
    blockMatches routesS2 = ["regexp:.*\\.ads\\.com", "protocol:bittorrent"] ∧
    nodeS2.Rules.Protocol = ["bittorrent"] ∧
    nodeS2.Rules.Regexp = [".*\\.ads\\.com"] := by
  have h := rules_content routesS2 1 "vmess" nodeS2 rfl
  have hb : blockMatches routesS2 = ["regexp:.*\\.ads\\.com", "protocol:bittorrent"] := by
    decide
  refine ⟨rfl, hb, ?_, ?_⟩
  · rw [h.1, hb]; decide
  · rw [h.2.1, hb]; decide

/-- C5. A `dns` route at position `i` whose normalized match list `m0 :: ms`
has `m0 ≠ "main"` is processed without a panic; afterwards `DNSMap` maps
`Itoa i` (the position, whatever the route's `Id`) to the record with the
route's `ActionValue` and the whole match list, every other key is as before,
and `DNSJson` and `Rules` are unchanged. -/
theorem dns_route_record (i : Nat) (r : Route) (node : NodeInfo) (m0 : String)
    (ms : List String) (hdns : r.Action = "dns")
    (hm : matchsOf r.Match = Exec.ret (m0 :: ms)) (h0 : m0 ≠ "main") :
    ∃ n : NodeInfo, routeStep i r node = Exec.ret n ∧
      MapGet n.RawDNS.DNSMap (Itoa (Int.ofNat i)) = some ⟨r.ActionValue, m0 :: ms⟩ ∧
      (∀ key : String, key ≠ Itoa (Int.ofNat i) →
        MapGet n.RawDNS.DNSMap key = MapGet node.RawDNS.DNSMap key) ∧
      n.RawDNS.DNSJson = node.RawDNS.DNSJson ∧
      n.Rules = node.Rules := by
  refine ⟨_, routeStep_dns i r node m0 ms hdns hm h0, MapGet_MapSet_same _ _ _, ?_, rfl, rfl⟩
  intro key hkey
  exact MapGet_MapSet_other _ _ _ _ hkey

/-- C5 at position 3 for a route whose `Id` is 40: the key is `"3"`. -/
theorem dns_route_record_witness :
    ∃ n : NodeInfo,
      routeStep 3 ⟨40, GoVal.str "a.com,b.com", "dns", "8.8.8.8"⟩ (NodeInfo.init 1 "vmess") =
        Exec.ret n ∧
      MapGet n.RawDNS.DNSMap "3" = some ⟨"8.8.8.8", ["a.com", "b.com"]⟩ ∧
      MapGet n.RawDNS.DNSMap "40" = none ∧
      n.RawDNS.DNSJson = [] := by
  obtain ⟨n, h1, h2, h3, h4, -⟩ :=
    dns_route_record 3 ⟨40, GoVal.str "a.com,b.com", "dns", "8.8.8.8"⟩
      (NodeInfo.init 1 "vmess") "a.com" ["b.com"] rfl (by decide) (by decide)
  refine ⟨n, h1, h2, ?_, ?_⟩
  · rw [h3 "40" (by decide)]; decide
  · rw [h4]; rfl

/-! ## Strings that are not decimal integers -/

theorem decValue_ge (cs : List Char) : ∀ n : Nat, n ≤ decValue cs n := by
  induction cs with
  | nil => intro n; exact Nat.le_refl _
  | cons c cs ih =>
    intro n
    have := ih (n * 10 + (c.toNat - 48))
    simp only [decValue, List.foldl_cons] at this ⊢
    omega

theorem decValue_cons (c : Char) (cs : List Char) (n : Nat) :
    decValue (c :: cs) n = decValue cs (n * 10 + (c.toNat - 48)) := rfl

/-- The digit loop on characters that are not all digits: a range error when the
leading digits overflow, a syntax error at the first other character
otherwise. -/
theorem parseUintLoop_not_all_digits (cs : List Char) :
    ∀ n : Nat, n ≤ maxUint64 → cs.all isDecDigit = false →
      parseUintLoop cs n =
        if decValue (cs.takeWhile isDecDigit) n > maxUint64 then
          (maxUint64, some NumError.ErrRange)
        else (0, some NumError.ErrSyntax) := by
  induction cs with
  | nil => intro n _ h; simp at h
  | cons c cs ih =>
    intro n hn hall
    have hmax : maxUint64 = 18446744073709551615 := by decide
    have hcut : maxUint64 / 10 + 1 = 1844674407370955162 := by decide
    have h48 : ('0' : Char).toNat = 48 := by decide
    by_cases hc : '0' ≤ c ∧ c ≤ '9'
    · have hd : isDecDigit c = true := by simp [isDecDigit, hc]
      have hall' : cs.all isDecDigit = false := by
        simpa [List.all_cons, hd] using hall
      have htw : (c :: cs).takeWhile isDecDigit = c :: cs.takeWhile isDecDigit := by
        simp [List.takeWhile_cons, hd]
      have hge := decValue_ge (cs.takeWhile isDecDigit) (n * 10 + (c.toNat - 48))
      rw [htw, decValue_cons]
      by_cases h1 : n ≥ maxUint64 / 10 + 1
      · have hov : decValue (cs.takeWhile isDecDigit) (n * 10 + (c.toNat - 48)) > maxUint64 := by
          rw [hcut] at h1; rw [hmax]; omega
        simp only [parseUintLoop, hc, and_self, if_true, h1, hov]
      · by_cases h2 : n * 10 + (c.toNat - '0'.toNat) > maxUint64
        · rw [h48] at h2
          have hov : decValue (cs.takeWhile isDecDigit) (n * 10 + (c.toNat - 48)) >
              maxUint64 := by omega
          simp only [parseUintLoop, hc, and_self, if_true, h1, if_false, h48]
          rw [if_pos h2, if_pos hov]
        · rw [h48] at h2
          have := ih (n * 10 + (c.toNat - 48)) (by omega) hall'
          simp only [parseUintLoop, hc, and_self, if_true, h1, if_false, h48]
          rw [if_neg h2, this]
    · have hd : isDecDigit c = false := by simp [isDecDigit, hc]
      have htw : (c :: cs).takeWhile isDecDigit = [] := by
        simp [List.takeWhile_cons, hd]
      have hno : ¬ (decValue [] n > maxUint64) := by
        simp only [decValue, List.foldl_nil]; omega
      rw [htw]
      simp only [parseUintLoop, hc, if_false, hno]

theorem ParseUint_not_all_digits (cs : List Char)
    (h : cs = [] ∨ cs.all isDecDigit = false) :
    ParseUint cs =
      if decValue (cs.takeWhile isDecDigit) 0 > maxUint64 then
        (maxUint64, some NumError.ErrRange)
      else (0, some NumError.ErrSyntax) := by
  cases cs with
  | nil => simp [ParseUint, decValue, maxUint64]
  | cons c cs =>
    have hall := h.resolve_left (by simp)
    have := parseUintLoop_not_all_digits (c :: cs) 0 (Nat.zero_le _) hall
    simpa [ParseUint] using this


theorem parseIntSigned_range (neg : Bool) (cs : List Char)
    (h : ParseUint cs = (maxUint64, some NumError.ErrRange)) :
    parseIntSigned neg cs =
      if neg then (-(2 : Int) ^ 63, some NumError.ErrRange)
      else ((2 : Int) ^ 63 - 1, some NumError.ErrRange) := by
  cases neg <;> simp [parseIntSigned, h, maxUint64]

/-- The duration for a string whose digits are not all digits, after the sign
has been read: -1 second when the string is unsigned or signed `+` and its
leading digits overflow, 0 seconds otherwise. -/
theorem duration_not_all_digits (neg : Bool) (cs : List Char)
    (h : cs = [] ∨ cs.all isDecDigit = false) :
    wrap64 ((parseIntSigned neg cs).1 * Second) =
      if neg = false ∧ decValue (cs.takeWhile isDecDigit) 0 > maxUint64 then -1 * Second
      else 0 := by
  have hp := ParseUint_not_all_digits cs h
  by_cases hov : decValue (cs.takeWhile isDecDigit) 0 > maxUint64
  · rw [if_pos hov] at hp
    rw [parseIntSigned_range neg cs hp]
    cases neg
    · simp only [hov, and_self, if_true]
      decide
    · simp only [Bool.true_eq_false, false_and, if_false, if_true]
      decide
  · rw [if_neg hov] at hp
    rw [parseIntSigned_bad neg cs hp]
    simp only [hov, and_false, if_false]
    decide

/-- A string that is not a decimal integer gives -1 second when its leading
digits overflow `uint64`, and 0 seconds otherwise. -/
theorem intervalToTime_not_integer (s : String) (h : isDecimalInteger s = false) :
    intervalToTime (GoVal.str s) =
      Exec.ret (if leadsBeyondUint64 s = true then -1 * Second else 0) := by
  have hfun : (fun d : Char => decide ('0' ≤ d ∧ d ≤ '9')) = isDecDigit := rfl
  unfold isDecimalInteger at h
  simp only [intervalToTime, Exec.ret.injEq]
  unfold Atoi leadsBeyondUint64 leadingDigits
  cases hd : s.data with
  | nil =>
    simp only
    decide
  | cons c cs =>
    rw [hd, hfun] at h
    simp only at h ⊢
    by_cases hp : c = '+'
    · simp only [hp, true_or, if_true] at h ⊢
      have hcs : cs = [] ∨ cs.all isDecDigit = false := by
        cases cs with
        | nil => left; rfl
        | cons d ds => right; simpa using h
      rw [duration_not_all_digits false cs hcs]
      simp
    · by_cases hm : c = '-'
      · have hmp : ('-' : Char) ≠ '+' := by decide
        simp only [hm, or_true, if_true, hmp, if_false] at h ⊢
        have hcs : cs = [] ∨ cs.all isDecDigit = false := by
          cases cs with
          | nil => left; rfl
          | cons d ds => right; simpa using h
        rw [duration_not_all_digits true cs hcs]
        have hnd : isDecDigit '-' = false := by decide
        simp [List.takeWhile_cons, hnd, decValue, maxUint64]
      · simp only [hp, hm, or_self, if_false] at h ⊢
        rw [duration_not_all_digits false (c :: cs) (Or.inr h)]
        simp

theorem decValue_lt (ds : List Char) :
    ∀ n : Nat, (∀ c ∈ ds, isDecDigit c = true) →
      decValue ds n < (n + 1) * 10 ^ ds.length := by
  induction ds with
  | nil => intro n _; simp [decValue]
  | cons c ds ih =>
    intro n hall
    have hc : '0' ≤ c ∧ c ≤ '9' := by
      have := hall c (List.mem_cons_self _ _)
      simpa [isDecDigit] using this
    have hd := digit_toNat_le c hc
    have h48 : ('0' : Char).toNat = 48 := by decide
    rw [h48] at hd
    have := ih (n * 10 + (c.toNat - 48)) (fun x hx => hall x (List.mem_cons_of_mem _ hx))
    rw [decValue_cons, List.length_cons, pow_succ]
    calc decValue ds (n * 10 + (c.toNat - 48))
        < (n * 10 + (c.toNat - 48) + 1) * 10 ^ ds.length := this
      _ ≤ ((n + 1) * 10) * 10 ^ ds.length := Nat.mul_le_mul_right _ (by omega)
      _ = (n + 1) * (10 ^ ds.length * 10) := by ring

/-- Fewer than 20 leading digits never overflow `uint64`. -/
theorem leadsBeyondUint64_of_short (s : String) (h : (leadingDigits s).length < 20) :
    leadsBeyondUint64 s = false := by
  have hall : ∀ c ∈ leadingDigits s, isDecDigit c = true := by
    intro c hc
    unfold leadingDigits at hc
    cases hd : s.data with
    | nil => rw [hd] at hc; simp at hc
    | cons x xs =>
      rw [hd] at hc
      simp only at hc
      split_ifs at hc
      · exact (List.mem_takeWhile_imp hc)
      · exact (List.mem_takeWhile_imp hc)
  have hlt := decValue_lt (leadingDigits s) 0 hall
  have hpow : 10 ^ (leadingDigits s).length ≤ 10 ^ 19 :=
    Nat.pow_le_pow_right (by decide) (by omega)
  have h19 : (10 : Nat) ^ 19 = 10000000000000000000 := by norm_num
  have hmax : maxUint64 = 18446744073709551615 := by decide
  simp only [leadsBeyondUint64, decide_eq_false_iff_not, not_lt, hmax]
  omega

/-! ## Claims about match normalization and the intervals -/

/-- C6 (evaluation at the failing input). A `match` that is a number, `null`,
or a list holding a number makes match normalization panic, and `GetNodeInfo`
on a response with such a route panics: no error value is returned. -/
theorem number_match_panics :
    matchsOf (GoVal.float64 ⟨5, 0⟩) =
      Exec.panic "interface conversion: interface {} is not []interface {}" ∧
    matchsOf GoVal.nil =
      Exec.panic "interface conversion: interface {} is not []interface {}" ∧
    matchsOf (GoVal.list [GoVal.str "a.com", GoVal.float64 ⟨5, 0⟩]) =
      Exec.panic "interface conversion: interface {} is not string" ∧
    GetNodeInfo envNumberMatch vmessClient sampleResponse none =
      Exec.panic "interface conversion: interface {} is not []interface {}" :=
  ⟨rfl, rfl, rfl, rfl⟩

/-- C7 (evaluation at the failing input). `intervalToTime` panics on `nil`
(a `null` or missing interval), on a boolean, on a list and on a map, and
`GetNodeInfo` on a response without `pull_interval` panics. -/
theorem nil_interval_panics :
    intervalToTime GoVal.nil =
      Exec.panic "invalid memory address or nil pointer dereference" ∧
    intervalToTime (GoVal.bool true) =
      Exec.panic "reflect: call of reflect.Value.Int on bool Value" ∧
    intervalToTime (GoVal.list []) =
      Exec.panic "reflect: call of reflect.Value.Int on slice Value" ∧
    intervalToTime (GoVal.map []) =
      Exec.panic "reflect: call of reflect.Value.Int on map Value" ∧
    GetNodeInfo envNoPullInterval vmessClient sampleResponse none =
      Exec.panic "invalid memory address or nil pointer dereference" :=
  ⟨rfl, rfl, rfl, rfl, rfl⟩

/-- C8 as stated fails. The integer 9223372037 does not give 9223372037
seconds: the product wraps to a negative duration. The string
`99999999999999999999x` is not a decimal integer and does not give 0 seconds:
`Atoi` reports a range error with the largest `int`, and the duration is
-1 second. -/
theorem interval_overflow_counterexample :
    intervalToTime (GoVal.int 9223372037) ≠ Exec.ret (9223372037 * Second) ∧
    intervalToTime (GoVal.int 9223372037) = Exec.ret (-9223372036709551616) ∧
    isDecimalInteger "99999999999999999999x" = false ∧
    Atoi "99999999999999999999x" = (9223372036854775807, some NumError.ErrRange) ∧
    intervalToTime (GoVal.str "99999999999999999999x") ≠ Exec.ret 0 ∧
    intervalToTime (GoVal.str "99999999999999999999x") = Exec.ret (-1 * Second) := by
  refine ⟨by decide, by decide, by decide, by decide, by decide, by decide⟩

/-- C8, amended. `intervalToTime` gives `n` seconds for an integer `n` with
`|n| ≤ 9223372036`; `k` seconds for the decimal rendering of an integer `k`
with `|k| ≤ 9223372036`; for a string that is not a decimal integer, 0 seconds,
except that it gives -1 second when the string, after an optional `+`, starts
with a run of digits whose value exceeds `2 ^ 64 - 1` (which takes at least 20
digits); and, for a floating-point `f` whose truncation toward zero `t` has
`|t| ≤ 9223372036`, `t` seconds. -/
theorem interval_values :
    (∀ n : Int, |n| ≤ 9223372036 → intervalToTime (GoVal.int n) = Exec.ret (n * Second)) ∧
    (∀ k : Int, |k| ≤ 9223372036 →
      intervalToTime (GoVal.str (Itoa k)) = Exec.ret (k * Second)) ∧
    (∀ s : String, isDecimalInteger s = false →
      intervalToTime (GoVal.str s) =
        Exec.ret (if leadsBeyondUint64 s = true then -1 * Second else 0)) ∧
    (∀ s : String, isDecimalInteger s = false → (leadingDigits s).length < 20 →
      intervalToTime (GoVal.str s) = Exec.ret 0) ∧
    (∀ f : Float64, |truncToZero f.toRat| ≤ 9223372036 →
      intervalToTime (GoVal.float64 f) = Exec.ret (truncToZero f.toRat * Second)) := by
  refine ⟨?_, ?_, ?_, ?_, ?_⟩
  · intro n hn
    simp only [intervalToTime, wrap64_seconds n hn]
  · intro k hk
    have hb := abs_le.mp hk
    have hA := Atoi_Itoa k (by omega) (by omega)
    simp only [intervalToTime, hA, wrap64_seconds k hk]
  · intro s hs
    exact intervalToTime_not_integer s hs
  · intro s hs hlen
    rw [intervalToTime_not_integer s hs, leadsBeyondUint64_of_short s hlen]
    rfl
  · intro f hf
    have ht := Float64_trunc f
    have hb := abs_le.mp hf
    have hin : Float64.toInt64 f = truncToZero f.toRat := by
      unfold Float64.toInt64
      simp only [ht]
      rw [if_pos]
      constructor <;> omega
    simp only [intervalToTime, hin, wrap64_seconds _ hf]

/-- C8 at the inputs the claim names: 42, `"42"` and 42.7 (the double
`3004745376386253 * 2 ^ (-46)`) give 42 seconds; `"42.7"`, `""` and `"abc"`
give 0 seconds. At the edge of the exception: `18446744073709551615x` and the
signed `-99999999999999999999x` give 0 seconds, `18446744073709551616x` gives
-1 second. -/
theorem interval_values_witness :
    intervalToTime (GoVal.int 42) = Exec.ret (42 * Second) ∧
    intervalToTime (GoVal.str "42") = Exec.ret (42 * Second) ∧
    intervalToTime (GoVal.float64 ⟨3004745376386253, -46⟩) = Exec.ret (42 * Second) ∧
    intervalToTime (GoVal.str "42.7") = Exec.ret 0 ∧
    intervalToTime (GoVal.str "") = Exec.ret 0 ∧
    intervalToTime (GoVal.str "abc") = Exec.ret 0 ∧
    intervalToTime (GoVal.str "18446744073709551615x") = Exec.ret 0 ∧
    intervalToTime (GoVal.str "-99999999999999999999x") = Exec.ret 0 ∧
    intervalToTime (GoVal.str "18446744073709551616x") = Exec.ret (-1 * Second) := by
  obtain ⟨hint, hstr, hexact, hbad, hfloat⟩ := interval_values
  have ht : truncToZero (Float64.toRat ⟨3004745376386253, -46⟩) = 42 := by
    rw [← Float64_trunc]; decide
  have e1 : leadsBeyondUint64 "18446744073709551615x" = false := by decide
  have e2 : leadsBeyondUint64 "-99999999999999999999x" = false := by decide
  have e3 : leadsBeyondUint64 "18446744073709551616x" = true := by decide
  have a1 := hexact "18446744073709551615x" (by decide)
  have a2 := hexact "-99999999999999999999x" (by decide)
  have a3 := hexact "18446744073709551616x" (by decide)
  rw [e1] at a1
  rw [e2] at a2
  rw [e3] at a3
  refine ⟨hint 42 (by decide), hstr 42 (by decide), ?_, hbad "42.7" (by decide) (by decide),
    hbad "" (by decide) (by decide), hbad "abc" (by decide) (by decide), a1, a2, a3⟩
  have := hfloat ⟨3004745376386253, -46⟩ (by rw [ht]; decide)
  rw [ht] at this
  exact this

/-! ## The fetch, taken apart -/

/-- A run of the common part that returns went through the route loop and both
interval conversions. -/
theorem parseCommon_ret (common : CommonNodeRsp) (node n : NodeInfo)
    (h : parseCommon common node = Exec.ret n) :
    ∃ (n1 : NodeInfo) (pull push : Int),
      interpretRoutes common.Routes node = Exec.ret n1 ∧
      intervalToTime common.BaseConfig.PullInterval = Exec.ret pull ∧
      intervalToTime common.BaseConfig.PushInterval = Exec.ret push ∧
      n = { n1 with
        ServerName := common.ServerName, Host := common.Host, Port := common.ServerPort,
        PullInterval := pull, PushInterval := push } := by
  unfold parseCommon at h
  cases h1 : interpretRoutes common.Routes node with
  | panic p => simp [h1] at h
  | ret n1 =>
    cases h2 : intervalToTime common.BaseConfig.PullInterval with
    | panic p => simp [h1, h2] at h
    | ret pull =>
      cases h3 : intervalToTime common.BaseConfig.PushInterval with
      | panic p => simp [h1, h2, h3] at h
      | ret push =>
        simp only [h1, h2, h3, Exec.ret.injEq] at h
        exact ⟨n1, pull, push, rfl, rfl, rfl, h.symm⟩

/-- The common part leaves the protocol fields as it found them. -/
theorem parseCommon_protocol_fields (common : CommonNodeRsp) (node n : NodeInfo)
    (h : parseCommon common node = Exec.ret n) :
    n.ExtraConfig = node.ExtraConfig ∧ n.TlsSettings = node.TlsSettings ∧
    n.Tls = node.Tls ∧ n.Network = node.Network ∧
    n.NetworkSettings = node.NetworkSettings ∧ n.Cipher = node.Cipher ∧
    n.ServerKey = node.ServerKey ∧ n.UpMbps = node.UpMbps ∧ n.DownMbps = node.DownMbps ∧
    n.HyObfs = node.HyObfs ∧ n.Id = node.Id ∧ n.Type_ = node.Type_ := by
  obtain ⟨n1, pull, push, h1, -, -, rfl⟩ := parseCommon_ret common node n h
  have hf := routesFrom_frame common.Routes 0 node n1 h1
  rw [hf]
  exact ⟨rfl, rfl, rfl, rfl, rfl, rfl, rfl, rfl, rfl, rfl, rfl, rfl⟩

/-- A call that returns a descriptor passed the response check with a status
other than 304, decoded the common envelope, ran the common part and the
protocol part, and stored the response's entity tag. -/
theorem GetNodeInfo_some (env : Env) (c : Client) (r : Response) (err : Option String)
    (res : Returned) (node : NodeInfo)
    (h : GetNodeInfo env c r err = Exec.ret res) (hn : res.node = some node) :
    ∃ (common : CommonNodeRsp) (n0 : NodeInfo),
      env.checkResponse r err = none ∧ r.StatusCode ≠ 304 ∧
      env.unmarshalCommon r.Body = Except.ok common ∧
      parseCommon common (NodeInfo.init c.NodeId c.NodeType) = Exec.ret n0 ∧
      parseProtocol env c r.Body n0 = Except.ok node ∧
      res = ⟨some node, none, { c with nodeEtag := r.ETag }⟩ := by
  unfold GetNodeInfo at h
  cases hc : env.checkResponse r err with
  | some e =>
    simp only [hc, Exec.ret.injEq] at h
    subst h
    simp at hn
  | none =>
    simp only [hc] at h
    by_cases hs : r.StatusCode = 304
    · simp only [hs, if_true, Exec.ret.injEq] at h
      subst h
      simp at hn
    · simp only [hs, if_false] at h
      cases hu : env.unmarshalCommon r.Body with
      | error e =>
        simp only [hu, Exec.ret.injEq] at h
        subst h
        simp at hn
      | ok common =>
        simp only [hu] at h
        cases hp : parseCommon common (NodeInfo.init c.NodeId c.NodeType) with
        | panic p => simp [hp] at h
        | ret n0 =>
          simp only [hp] at h
          cases hq : parseProtocol env c r.Body n0 with
          | error e =>
            simp only [hq, Exec.ret.injEq] at h
            subst h
            simp at hn
          | ok node1 =>
            simp only [hq, Exec.ret.injEq] at h
            subst h
            simp only [Option.some.injEq] at hn
            subst hn
            exact ⟨common, n0, rfl, hs, rfl, hp, hq, rfl⟩

/-- What the `vmess` case leaves in `ExtraConfig`, by what `network_settings`
decoded to. -/
theorem parseVMess_extra (env : Env) (c : Client) (body : List UInt8) (node n : NodeInfo)
    (h : parseVMess env c body node = Except.ok n) :
    ∃ (rsp : VMessNodeRsp) (extra : ExtraConfig),
      env.unmarshalVMess body = Except.ok rsp ∧
      env.unmarshalExtraConfig rsp.NetworkSettings = Except.ok extra ∧
      ((extra.EnableReality = "true" ∧ extra.RealityConfig = none ∧
          n.ExtraConfig = { extra with EnableReality := "false" }) ∨
       (extra.EnableReality = "true" ∧ ∃ rc, extra.RealityConfig = some rc ∧
          n.ExtraConfig = { extra with
            RealityConfig := some { rc with PrivateKey := realityKey env c } }) ∨
       (extra.EnableReality ≠ "true" ∧ n.ExtraConfig = extra)) := by
  unfold parseVMess at h
  cases hv : env.unmarshalVMess body with
  | error e => simp [hv] at h
  | ok rsp =>
    simp only [hv] at h
    cases hx : env.unmarshalExtraConfig rsp.NetworkSettings with
    | error e => simp [hx] at h
    | ok extra =>
      refine ⟨rsp, extra, rfl, hx, ?_⟩
      simp only [hx] at h
      by_cases ht : extra.EnableReality = "true"
      · rw [if_pos ht] at h
        cases hr : extra.RealityConfig with
        | none =>
          left
          rw [hr] at h
          simp only [Except.ok.injEq] at h
          subst h
          exact ⟨ht, rfl, rfl⟩
        | some rc =>
          right; left
          rw [hr] at h
          simp only [Except.ok.injEq] at h
          subst h
          exact ⟨ht, rc, rfl, rfl⟩
      · right; right
        rw [if_neg ht] at h
        simp only [Except.ok.injEq] at h
        subst h
        exact ⟨ht, rfl⟩

/-- What the `vless` case leaves in `ExtraConfig` and `TlsSettings`. -/
theorem parseVLESS_extra (env : Env) (c : Client) (body : List UInt8) (node n : NodeInfo)
    (h : parseVLESS env c body node = Except.ok n) :
    ∃ rsp : VLESSNodeRsp, env.unmarshalVLESS body = Except.ok rsp ∧
      ((rsp.Tls = 2 ∧ ∃ tls, env.unmarshalTlsSettings rsp.TlsSettings = Except.ok tls ∧
          n.TlsSettings = tls ∧
          n.ExtraConfig = ⟨"", rsp.Flow, "true", some ⟨Itoa tls.ServerPort, "", [tls.ServerName],
            realityKey env c, "", "", "", [tls.ShortID]⟩⟩) ∨
       (rsp.Tls ≠ 2 ∧ n.ExtraConfig = node.ExtraConfig ∧ n.TlsSettings = node.TlsSettings)) := by
  unfold parseVLESS at h
  cases hv : env.unmarshalVLESS body with
  | error e => simp [hv] at h
  | ok rsp =>
    refine ⟨rsp, rfl, ?_⟩
    simp only [hv] at h
    by_cases h2 : rsp.Tls = 2
    · left
      simp only [h2, if_true] at h
      cases ht : env.unmarshalTlsSettings rsp.TlsSettings with
      | error e => simp [ht] at h
      | ok tls =>
        simp only [ht, Except.ok.injEq] at h
        subst h
        exact ⟨h2, tls, rfl, rfl, rfl⟩
    · right
      simp only [h2, if_false, Except.ok.injEq] at h
      subst h
      refine ⟨h2, ?_, ?_⟩ <;> split_ifs <;> rfl

/-- The cases of the protocol `switch` other than `vmess` and `vless` leave
`ExtraConfig` as it was. -/
theorem parseProtocol_other_extra (env : Env) (c : Client) (body : List UInt8)
    (node n : NodeInfo) (h : parseProtocol env c body node = Except.ok n)
    (h1 : c.NodeType ≠ "vmess") (h2 : c.NodeType ≠ "vless") :
    n.ExtraConfig = node.ExtraConfig := by
  unfold parseProtocol at h
  rw [if_neg h1, if_neg h2] at h
  by_cases h3 : c.NodeType = "shadowsocks"
  · rw [if_pos h3] at h
    unfold parseShadowsocks at h
    cases hv : env.unmarshalShadowsocks body with
    | error e => simp [hv] at h
    | ok rsp =>
      simp only [hv, Except.ok.injEq] at h
      subst h; rfl
  · rw [if_neg h3] at h
    by_cases h4 : c.NodeType = "trojan"
    · rw [if_pos h4] at h
      simp only [Except.ok.injEq] at h
      subst h; rfl
    · rw [if_neg h4] at h
      by_cases h5 : c.NodeType = "hysteria"
      · rw [if_pos h5] at h
        unfold parseHysteria at h
        cases hv : env.unmarshalHysteria body with
        | error e => simp [hv] at h
        | ok rsp =>
          simp only [hv, Except.ok.injEq] at h
          subst h; rfl
      · rw [if_neg h5] at h
        simp only [Except.ok.injEq] at h
        subst h; rfl

/-- After the protocol part, started from a zero `ExtraConfig`, Reality enabled
means a Reality configuration is there and carries the derived key. -/
theorem parseProtocol_reality (env : Env) (c : Client) (body : List UInt8)
    (node n : NodeInfo) (h : parseProtocol env c body node = Except.ok n)
    (hz : node.ExtraConfig = ExtraConfig.zero)
    (ht : n.ExtraConfig.EnableReality = "true") :
    ∃ rc, n.ExtraConfig.RealityConfig = some rc ∧ rc.PrivateKey = realityKey env c := by
  by_cases h1 : c.NodeType = "vmess"
  · have hv : parseVMess env c body node = Except.ok n := by
      unfold parseProtocol at h
      rw [if_pos h1] at h
      exact h
    obtain ⟨rsp, extra, -, -, hc⟩ := parseVMess_extra env c body node n hv
    rcases hc with ⟨-, -, he⟩ | ⟨-, rc, -, he⟩ | ⟨hne, he⟩
    · rw [he] at ht
      have hft : ("false" : String) ≠ "true" := by decide
      exact absurd ht hft
    · exact ⟨_, by rw [he], rfl⟩
    · rw [he] at ht
      exact absurd ht hne
  · by_cases h2 : c.NodeType = "vless"
    · have hv : parseVLESS env c body node = Except.ok n := by
        unfold parseProtocol at h
        rw [if_neg h1, if_pos h2] at h
        exact h
      obtain ⟨rsp, -, hc⟩ := parseVLESS_extra env c body node n hv
      rcases hc with ⟨-, tls, -, -, he⟩ | ⟨-, he, -⟩
      · exact ⟨_, by rw [he], rfl⟩
      · rw [he, hz] at ht
        exact absurd ht (by decide)
    · have he := parseProtocol_other_extra env c body node n h h1 h2
      rw [he, hz] at ht
      exact absurd ht (by decide)

/-! ## Claims about Reality -/

/-- C9. On every call that returns a descriptor, whatever the node type,
`EnableReality = "true"` implies that `RealityConfig` is present; and for
`vmess`, when `network_settings` decode to `EnableReality = "true"` with a null
`RealityConfig`, the descriptor has `EnableReality = "false"`. -/
theorem reality_never_half_enabled (env : Env) (c : Client) (r : Response)
    (err : Option String) (res : Returned) (node : NodeInfo)
    (hret : GetNodeInfo env c r err = Exec.ret res) (hnode : res.node = some node) :
    (node.ExtraConfig.EnableReality = "true" → node.ExtraConfig.RealityConfig.isSome = true) ∧
    (c.NodeType = "vmess" → ∀ (rsp : VMessNodeRsp) (extra : ExtraConfig),
      env.unmarshalVMess r.Body = Except.ok rsp →
      env.unmarshalExtraConfig rsp.NetworkSettings = Except.ok extra →
      extra.EnableReality = "true" → extra.RealityConfig = none →
      node.ExtraConfig.EnableReality = "false") := by
  obtain ⟨common, n0, -, -, -, hcommon, hproto, -⟩ := GetNodeInfo_some env c r err res node hret hnode
  have hz : n0.ExtraConfig = ExtraConfig.zero :=
    (parseCommon_protocol_fields common _ n0 hcommon).1
  constructor
  · intro ht
    obtain ⟨rc, hrc, -⟩ := parseProtocol_reality env c r.Body n0 node hproto hz ht
    rw [hrc]; rfl
  · intro hty rsp extra hrsp hextra htrue hnone
    have hv : parseVMess env c r.Body n0 = Except.ok node := by
      unfold parseProtocol at hproto
      rw [if_pos hty] at hproto
      exact hproto
    obtain ⟨rsp1, extra1, hrsp1, hextra1, hc⟩ := parseVMess_extra env c r.Body n0 node hv
    rw [hrsp] at hrsp1
    simp only [Except.ok.injEq] at hrsp1
    subst hrsp1
    rw [hextra] at hextra1
    simp only [Except.ok.injEq] at hextra1
    subst hextra1
    rcases hc with ⟨-, -, he⟩ | ⟨-, rc, hsome, -⟩ | ⟨hne, -⟩
    · rw [he]
    · rw [hnone] at hsome
      exact absurd hsome (by simp)
    · exact absurd htrue hne

/-- C9 at two `vmess` runs: Reality enabled with a null configuration comes out
as `"false"`; Reality enabled with a configuration keeps the configuration. -/
theorem reality_never_half_enabled_witness :
    GetNodeInfo envRealityNull vmessClient sampleResponse none =
      Exec.ret ⟨some nodeRealityNull, none, { vmessClient with nodeEtag := "abc" }⟩ ∧
    nodeRealityNull.ExtraConfig.EnableReality = "false" ∧
    GetNodeInfo envRealitySet vmessClient sampleResponse none =
      Exec.ret ⟨some nodeRealitySet, none, { vmessClient with nodeEtag := "abc" }⟩ ∧
    nodeRealitySet.ExtraConfig.RealityConfig.isSome = true := by
  have h1 : GetNodeInfo envRealityNull vmessClient sampleResponse none =
      Exec.ret ⟨some nodeRealityNull, none, { vmessClient with nodeEtag := "abc" }⟩ := by decide
  have h2 : GetNodeInfo envRealitySet vmessClient sampleResponse none =
      Exec.ret ⟨some nodeRealitySet, none, { vmessClient with nodeEtag := "abc" }⟩ := by decide
  refine ⟨h1, ?_, h2, ?_⟩
  · exact (reality_never_half_enabled envRealityNull vmessClient sampleResponse none _
      nodeRealityNull h1 rfl).2 rfl ⟨1, "tcp", []⟩ ⟨"", "", "true", none⟩ rfl rfl rfl rfl
  · exact (reality_never_half_enabled envRealitySet vmessClient sampleResponse none _
      nodeRealitySet h2 rfl).1 rfl

/-- C10. When a returned descriptor has `EnableReality = "true"`, its
`RealityConfig` is present and its `PrivateKey` is the unpadded base64url
encoding of `GenX25519Private` applied to the bytes of `NodeType ++ Token`.
Hence any other run with the same derivation, node type and token that returns
a descriptor with Reality enabled has the same `PrivateKey`, whatever its
decoders and response are. -/
theorem reality_key_deterministic (env : Env) (c : Client) (r : Response)
    (err : Option String) (res : Returned) (node : NodeInfo)
    (hret : GetNodeInfo env c r err = Exec.ret res) (hnode : res.node = some node)
    (ht : node.ExtraConfig.EnableReality = "true") :
    (∃ rc, node.ExtraConfig.RealityConfig = some rc ∧
      rc.PrivateKey =
        RawURLEncodeToString (env.GenX25519Private (bytes (c.NodeType ++ c.Token)))) ∧
    (∀ (env1 : Env) (c1 : Client) (r1 : Response) (err1 : Option String) (res1 : Returned)
      (node1 : NodeInfo), env1.GenX25519Private = env.GenX25519Private →
      c1.NodeType = c.NodeType → c1.Token = c.Token →
      GetNodeInfo env1 c1 r1 err1 = Exec.ret res1 → res1.node = some node1 →
      node1.ExtraConfig.EnableReality = "true" →
      node1.ExtraConfig.RealityConfig.map RealityConfig.PrivateKey =
        node.ExtraConfig.RealityConfig.map RealityConfig.PrivateKey) := by
  have key : ∀ (env : Env) (c : Client) (r : Response) (err : Option String) (res : Returned)
      (node : NodeInfo), GetNodeInfo env c r err = Exec.ret res → res.node = some node →
      node.ExtraConfig.EnableReality = "true" →
      ∃ rc, node.ExtraConfig.RealityConfig = some rc ∧ rc.PrivateKey = realityKey env c := by
    intro env c r err res node hret hnode ht
    obtain ⟨common, n0, -, -, -, hcommon, hproto, -⟩ :=
      GetNodeInfo_some env c r err res node hret hnode
    exact parseProtocol_reality env c r.Body n0 node hproto
      (parseCommon_protocol_fields common _ n0 hcommon).1 ht
  obtain ⟨rc, hrc, hk⟩ := key env c r err res node hret hnode ht
  refine ⟨⟨rc, hrc, hk⟩, ?_⟩
  intro env1 c1 r1 err1 res1 node1 hg hty htok hret1 hnode1 ht1
  obtain ⟨rc1, hrc1, hk1⟩ := key env1 c1 r1 err1 res1 node1 hret1 hnode1 ht1
  rw [hrc, hrc1]
  simp only [Option.map_some', Option.some.injEq]
  rw [hk, hk1]
  simp only [realityKey, hg, hty, htok]

/-- C10 at two `vmess` runs of the same node type and token whose responses
differ and carry the private keys `upstream-key` and `another-key`: both
descriptors have the key `dm1lc3NU`, the encoding of the bytes of `vmessT` under
the sample derivation. -/
theorem reality_key_deterministic_witness :
    (nodeRealitySet.ExtraConfig.RealityConfig.map RealityConfig.PrivateKey) = some "dm1lc3NU" ∧
    (nodeRealityOther.ExtraConfig.RealityConfig.map RealityConfig.PrivateKey) =
      (nodeRealitySet.ExtraConfig.RealityConfig.map RealityConfig.PrivateKey) := by
  have h1 : GetNodeInfo envRealitySet vmessClient sampleResponse none =
      Exec.ret ⟨some nodeRealitySet, none, { vmessClient with nodeEtag := "abc" }⟩ := by decide
  have h2 : GetNodeInfo envRealityOther vmessClient ⟨200, [9], "xyz"⟩ none =
      Exec.ret ⟨some nodeRealityOther, none, { vmessClient with nodeEtag := "xyz" }⟩ := by decide
  have h := reality_key_deterministic envRealitySet vmessClient sampleResponse none _
    nodeRealitySet h1 rfl rfl
  obtain ⟨⟨rc, hrc, hk⟩, hsame⟩ := h
  constructor
  · rw [hrc]
    simp only [Option.map_some']
    rw [hk]
    decide
  · exact hsame envRealityOther vmessClient ⟨200, [9], "xyz"⟩ none _ nodeRealityOther rfl rfl rfl
      h2 rfl rfl

/-! ## The protocol `switch`, case by case -/

theorem parseProtocol_vmess (env : Env) (c : Client) (body : List UInt8) (node : NodeInfo)
    (h : c.NodeType = "vmess") : parseProtocol env c body node = parseVMess env c body node := by
  unfold parseProtocol
  rw [if_pos h]

theorem parseProtocol_vless (env : Env) (c : Client) (body : List UInt8) (node : NodeInfo)
    (h : c.NodeType = "vless") : parseProtocol env c body node = parseVLESS env c body node := by
  have h1 : c.NodeType ≠ "vmess" := by rw [h]; decide
  unfold parseProtocol
  rw [if_neg h1, if_pos h]

theorem parseProtocol_shadowsocks (env : Env) (c : Client) (body : List UInt8)
    (node : NodeInfo) (h : c.NodeType = "shadowsocks") :
    parseProtocol env c body node = parseShadowsocks env body node := by
  have h1 : c.NodeType ≠ "vmess" := by rw [h]; decide
  have h2 : c.NodeType ≠ "vless" := by rw [h]; decide
  unfold parseProtocol
  rw [if_neg h1, if_neg h2, if_pos h]

theorem parseProtocol_trojan (env : Env) (c : Client) (body : List UInt8) (node : NodeInfo)
    (h : c.NodeType = "trojan") :
    parseProtocol env c body node = Except.ok { node with Tls := true } := by
  have h1 : c.NodeType ≠ "vmess" := by rw [h]; decide
  have h2 : c.NodeType ≠ "vless" := by rw [h]; decide
  have h3 : c.NodeType ≠ "shadowsocks" := by rw [h]; decide
  unfold parseProtocol
  rw [if_neg h1, if_neg h2, if_neg h3, if_pos h]

theorem parseProtocol_hysteria (env : Env) (c : Client) (body : List UInt8) (node : NodeInfo)
    (h : c.NodeType = "hysteria") :
    parseProtocol env c body node = parseHysteria env body node := by
  have h1 : c.NodeType ≠ "vmess" := by rw [h]; decide
  have h2 : c.NodeType ≠ "vless" := by rw [h]; decide
  have h3 : c.NodeType ≠ "shadowsocks" := by rw [h]; decide
  have h4 : c.NodeType ≠ "trojan" := by rw [h]; decide
  unfold parseProtocol
  rw [if_neg h1, if_neg h2, if_neg h3, if_neg h4, if_pos h]

/-- A node type with no case passes through the `switch` untouched. -/
theorem parseProtocol_unknown (env : Env) (c : Client) (body : List UInt8) (node : NodeInfo)
    (h1 : c.NodeType ≠ "vmess") (h2 : c.NodeType ≠ "vless")
    (h3 : c.NodeType ≠ "shadowsocks") (h4 : c.NodeType ≠ "trojan")
    (h5 : c.NodeType ≠ "hysteria") : parseProtocol env c body node = Except.ok node := by
  unfold parseProtocol
  rw [if_neg h1, if_neg h2, if_neg h3, if_neg h4, if_neg h5]

/-- The `shadowsocks` case writes `ServerKey` and `Cipher` and nothing else. -/
theorem parseShadowsocks_ok (env : Env) (body : List UInt8) (node n : NodeInfo)
    (h : parseShadowsocks env body node = Except.ok n) :
    ∃ rsp : ShadowsocksNodeRsp, env.unmarshalShadowsocks body = Except.ok rsp ∧
      n = { node with ServerKey := rsp.ServerKey, Cipher := rsp.Cipher } := by
  unfold parseShadowsocks at h
  cases hv : env.unmarshalShadowsocks body with
  | error e => simp [hv] at h
  | ok rsp =>
    simp only [hv, Except.ok.injEq] at h
    exact ⟨rsp, rfl, h.symm⟩

/-- The `hysteria` case writes `DownMbps`, `UpMbps` and `HyObfs` and nothing
else. -/
theorem parseHysteria_ok (env : Env) (body : List UInt8) (node n : NodeInfo)
    (h : parseHysteria env body node = Except.ok n) :
    ∃ rsp : HysteriaNodeRsp, env.unmarshalHysteria body = Except.ok rsp ∧
      n = { node with DownMbps := rsp.DownMbps, UpMbps := rsp.UpMbps, HyObfs := rsp.Obfs } := by
  unfold parseHysteria at h
  cases hv : env.unmarshalHysteria body with
  | error e => simp [hv] at h
  | ok rsp =>
    simp only [hv, Except.ok.injEq] at h
    exact ⟨rsp, rfl, h.symm⟩

/-- The `Tls` flag and the transport fields the `vmess` case leaves. -/
theorem parseVMess_tls (env : Env) (c : Client) (body : List UInt8) (node n : NodeInfo)
    (h : parseVMess env c body node = Except.ok n) :
    ∃ rsp : VMessNodeRsp, env.unmarshalVMess body = Except.ok rsp ∧
      n.Tls = (if rsp.Tls = 1 then true else node.Tls) ∧
      n.Network = rsp.Network ∧ n.NetworkSettings = rsp.NetworkSettings := by
  unfold parseVMess at h
  cases hv : env.unmarshalVMess body with
  | error e => simp [hv] at h
  | ok rsp =>
    refine ⟨rsp, rfl, ?_⟩
    simp only [hv] at h
    cases hx : env.unmarshalExtraConfig rsp.NetworkSettings with
    | error e => simp [hx] at h
    | ok extra =>
      simp only [hx] at h
      by_cases ht : extra.EnableReality = "true"
      · rw [if_pos ht] at h
        cases hr : extra.RealityConfig with
        | none =>
          rw [hr] at h
          simp only [Except.ok.injEq] at h
          subst h
          refine ⟨?_, ?_, ?_⟩ <;> split_ifs <;> rfl
        | some rc =>
          rw [hr] at h
          simp only [Except.ok.injEq] at h
          subst h
          refine ⟨?_, ?_, ?_⟩ <;> split_ifs <;> rfl
      · rw [if_neg ht] at h
        simp only [Except.ok.injEq] at h
        subst h
        refine ⟨?_, ?_, ?_⟩ <;> split_ifs <;> rfl

/-- The `Tls` flag and the transport fields the `vless` case leaves. -/
theorem parseVLESS_tls (env : Env) (c : Client) (body : List UInt8) (node n : NodeInfo)
    (h : parseVLESS env c body node = Except.ok n) :
    ∃ rsp : VLESSNodeRsp, env.unmarshalVLESS body = Except.ok rsp ∧
      n.Tls = (if rsp.Tls ≠ 0 then true else node.Tls) ∧
      n.Network = rsp.Network ∧ n.NetworkSettings = rsp.NetworkSettings := by
  unfold parseVLESS at h
  cases hv : env.unmarshalVLESS body with
  | error e => simp [hv] at h
  | ok rsp =>
    refine ⟨rsp, rfl, ?_⟩
    simp only [hv] at h
    by_cases h2 : rsp.Tls = 2
    · rw [if_pos h2] at h
      cases ht : env.unmarshalTlsSettings rsp.TlsSettings with
      | error e => simp [ht] at h
      | ok tls =>
        rw [ht] at h
        simp only [Except.ok.injEq] at h
        subst h
        refine ⟨?_, ?_, ?_⟩ <;> split_ifs <;> rfl
    · rw [if_neg h2] at h
      simp only [Except.ok.injEq] at h
      subst h
      refine ⟨?_, ?_, ?_⟩ <;> split_ifs <;> rfl

/-- Every way `GetNodeInfo` returns: an error with the client untouched, the
unchanged result with the client untouched, or a descriptor with the response's
entity tag stored. -/
theorem GetNodeInfo_ret_cases (env : Env) (c : Client) (r : Response) (err : Option String)
    (res : Returned) (h : GetNodeInfo env c r err = Exec.ret res) :
    (∃ e, res = ⟨none, some e, c⟩) ∨ res = ⟨none, none, c⟩ ∨
    (∃ node, res = ⟨some node, none, { c with nodeEtag := r.ETag }⟩) := by
  unfold GetNodeInfo at h
  cases hc : env.checkResponse r err with
  | some e =>
    simp only [hc, Exec.ret.injEq] at h
    exact Or.inl ⟨e, h.symm⟩
  | none =>
    simp only [hc] at h
    by_cases hs : r.StatusCode = 304
    · simp only [hs, if_true, Exec.ret.injEq] at h
      exact Or.inr (Or.inl h.symm)
    · simp only [hs, if_false] at h
      cases hu : env.unmarshalCommon r.Body with
      | error e =>
        simp only [hu, Exec.ret.injEq] at h
        exact Or.inl ⟨_, h.symm⟩
      | ok common =>
        simp only [hu] at h
        cases hp : parseCommon common (NodeInfo.init c.NodeId c.NodeType) with
        | panic p => simp [hp] at h
        | ret n0 =>
          simp only [hp] at h
          cases hq : parseProtocol env c r.Body n0 with
          | error e =>
            simp only [hq, Exec.ret.injEq] at h
            exact Or.inl ⟨e, h.symm⟩
          | ok node1 =>
            simp only [hq, Exec.ret.injEq] at h
            exact Or.inr (Or.inr ⟨node1, h.symm⟩)

/-- Once the response check has passed, the status is not 304, the common
envelope has decoded and the common part has returned, the call returns what the
protocol part gives. -/
theorem GetNodeInfo_of_common (env : Env) (c : Client) (r : Response) (err : Option String)
    (common : CommonNodeRsp) (n0 : NodeInfo)
    (hc : env.checkResponse r err = none) (hs : r.StatusCode ≠ 304)
    (hu : env.unmarshalCommon r.Body = Except.ok common)
    (hp : parseCommon common (NodeInfo.init c.NodeId c.NodeType) = Exec.ret n0) :
    GetNodeInfo env c r err =
      match parseProtocol env c r.Body n0 with
      | Except.error e => Exec.ret ⟨none, some e, c⟩
      | Except.ok node1 => Exec.ret ⟨some node1, none, { c with nodeEtag := r.ETag }⟩ := by
  unfold GetNodeInfo
  simp only [hc, hs, if_false, hu, hp]

/-- What the common part puts into the descriptor. -/
theorem parseCommon_common_fields (common : CommonNodeRsp) (node n : NodeInfo)
    (h : parseCommon common node = Exec.ret n) :
    n.Host = common.Host ∧ n.Port = common.ServerPort ∧ n.ServerName = common.ServerName ∧
    (∃ n1, interpretRoutes common.Routes node = Exec.ret n1 ∧
      n.Rules = n1.Rules ∧ n.RawDNS = n1.RawDNS) ∧
    intervalToTime common.BaseConfig.PullInterval = Exec.ret n.PullInterval ∧
    intervalToTime common.BaseConfig.PushInterval = Exec.ret n.PushInterval := by
  obtain ⟨n1, pull, push, h1, h2, h3, rfl⟩ := parseCommon_ret common node n h
  exact ⟨rfl, rfl, rfl, ⟨n1, h1, rfl, rfl⟩, h2, h3⟩

/-! ## Claims about the protocol part -/

/-- C11. On a `vless` call that returns a descriptor, with `rsp` the decoded
protocol envelope: when `rsp.Tls = 2` and `tls_settings` decode to `tls`, the
descriptor has `TlsSettings = tls` and an `ExtraConfig` with empty
`EnableVless`, the response's `Flow`, `EnableReality = "true"` and a
`RealityConfig` whose `Dest` is `Itoa tls.ServerPort`, whose `ServerNames` and
`ShortIds` are the one-element lists of `tls.ServerName` and `tls.ShortID`,
whose `PrivateKey` is the derived key and whose other fields are empty; when
`rsp.Tls ≠ 2`, `ExtraConfig` and `TlsSettings` are zero. -/
theorem vless_reality_config (env : Env) (c : Client) (r : Response)
    (err : Option String) (res : Returned) (node : NodeInfo) (rsp : VLESSNodeRsp)
    (hret : GetNodeInfo env c r err = Exec.ret res) (hnode : res.node = some node)
    (hty : c.NodeType = "vless") (hrsp : env.unmarshalVLESS r.Body = Except.ok rsp) :
    (rsp.Tls = 2 → ∀ tls : TlsSettings,
      env.unmarshalTlsSettings rsp.TlsSettings = Except.ok tls →
      node.TlsSettings = tls ∧
      node.ExtraConfig =
        { EnableVless := ""
          Flow := rsp.Flow
          EnableReality := "true"
          RealityConfig := some
            { Dest := Itoa tls.ServerPort
              Xver := ""
              ServerNames := [tls.ServerName]
              PrivateKey :=
                RawURLEncodeToString (env.GenX25519Private (bytes (c.NodeType ++ c.Token)))
              MinClientVer := ""
              MaxClientVer := ""
              MaxTimeDiff := ""
              ShortIds := [tls.ShortID] } }) ∧
    (rsp.Tls ≠ 2 →
      node.ExtraConfig = ExtraConfig.zero ∧ node.TlsSettings = TlsSettings.zero) := by
  obtain ⟨common, n0, -, -, -, hcommon, hproto, -⟩ := GetNodeInfo_some env c r err res node hret hnode
  have hz := parseCommon_protocol_fields common _ n0 hcommon
  rw [parseProtocol_vless env c r.Body n0 hty] at hproto
  obtain ⟨rsp1, hrsp1, hc⟩ := parseVLESS_extra env c r.Body n0 node hproto
  rw [hrsp] at hrsp1
  simp only [Except.ok.injEq] at hrsp1
  subst hrsp1
  constructor
  · intro h2 tls htls
    rcases hc with ⟨-, tls1, htls1, ht, he⟩ | ⟨hne, -, -⟩
    · rw [htls] at htls1
      simp only [Except.ok.injEq] at htls1
      subst htls1
      exact ⟨ht, he⟩
    · exact absurd h2 hne
  · intro hne
    rcases hc with ⟨h2, -⟩ | ⟨-, he, ht⟩
    · exact absurd h2 hne
    · rw [he, ht, hz.1, hz.2.1]
      exact ⟨rfl, rfl⟩

/-- C11 at scenario S1 (wire `tls` 2) and at a `vless` response with wire
`tls` 1. -/
theorem vless_reality_config_witness :
    GetNodeInfo sampleEnv vlessClient sampleResponse none =
      Exec.ret ⟨some nodeVlessReality, none, { vlessClient with nodeEtag := "abc" }⟩ ∧
    nodeVlessReality.TlsSettings = ⟨"www.example.com", 443, "ab"⟩ ∧
    nodeVlessReality.ExtraConfig = ⟨"", "xtls-rprx-vision", "true",
      some ⟨"443", "", ["www.example.com"], "dmxlc3NU", "", "", "", ["ab"]⟩⟩ ∧
    GetNodeInfo envVlessTls1 vlessClient sampleResponse none =
      Exec.ret ⟨some nodeVlessTls1, none, { vlessClient with nodeEtag := "abc" }⟩ ∧
    nodeVlessTls1.ExtraConfig = ExtraConfig.zero ∧
    nodeVlessTls1.TlsSettings = TlsSettings.zero := by
  have h1 : GetNodeInfo sampleEnv vlessClient sampleResponse none =
      Exec.ret ⟨some nodeVlessReality, none, { vlessClient with nodeEtag := "abc" }⟩ := by decide
  have h2 : GetNodeInfo envVlessTls1 vlessClient sampleResponse none =
      Exec.ret ⟨some nodeVlessTls1, none, { vlessClient with nodeEtag := "abc" }⟩ := by decide
  have a := (vless_reality_config sampleEnv vlessClient sampleResponse none _ nodeVlessReality
    ⟨"xtls-rprx-vision", 2, [], "tcp", []⟩ h1 rfl rfl rfl).1 rfl
    ⟨"www.example.com", 443, "ab"⟩ rfl
  have b := (vless_reality_config envVlessTls1 vlessClient sampleResponse none _ nodeVlessTls1
    ⟨"flow", 1, [], "tcp", []⟩ h2 rfl rfl rfl).2 (by decide)
  exact ⟨h1, a.1, a.2, h2, b.1, b.2⟩

/-- C12. On a call that returns a descriptor, `Tls` is: for `vmess`, whether
the wire `tls` is 1; for `vless`, whether the wire `tls` is not 0; for `trojan`,
true; for every other node type, false. -/
theorem tls_flag (env : Env) (c : Client) (r : Response) (err : Option String)
    (res : Returned) (node : NodeInfo)
    (hret : GetNodeInfo env c r err = Exec.ret res) (hnode : res.node = some node) :
    (c.NodeType = "vmess" → ∃ rsp : VMessNodeRsp,
      env.unmarshalVMess r.Body = Except.ok rsp ∧ node.Tls = decide (rsp.Tls = 1)) ∧
    (c.NodeType = "vless" → ∃ rsp : VLESSNodeRsp,
      env.unmarshalVLESS r.Body = Except.ok rsp ∧ node.Tls = decide (rsp.Tls ≠ 0)) ∧
    (c.NodeType = "trojan" → node.Tls = true) ∧
    (c.NodeType ≠ "vmess" → c.NodeType ≠ "vless" → c.NodeType ≠ "trojan" →
      node.Tls = false) := by
  obtain ⟨common, n0, -, -, -, hcommon, hproto, -⟩ := GetNodeInfo_some env c r err res node hret hnode
  have hz := parseCommon_protocol_fields common _ n0 hcommon
  have htls : n0.Tls = false := hz.2.2.1
  refine ⟨?_, ?_, ?_, ?_⟩
  · intro hty
    rw [parseProtocol_vmess env c r.Body n0 hty] at hproto
    obtain ⟨rsp, hrsp, ht, -⟩ := parseVMess_tls env c r.Body n0 node hproto
    refine ⟨rsp, hrsp, ?_⟩
    rw [ht, htls]
    by_cases h1 : rsp.Tls = 1 <;> simp [h1]
  · intro hty
    rw [parseProtocol_vless env c r.Body n0 hty] at hproto
    obtain ⟨rsp, hrsp, ht, -⟩ := parseVLESS_tls env c r.Body n0 node hproto
    refine ⟨rsp, hrsp, ?_⟩
    rw [ht, htls]
    by_cases h0 : rsp.Tls = 0 <;> simp [h0]
  · intro hty
    rw [parseProtocol_trojan env c r.Body n0 hty] at hproto
    simp only [Except.ok.injEq] at hproto
    subst hproto
    rfl
  · intro h1 h2 h4
    by_cases h3 : c.NodeType = "shadowsocks"
    · rw [parseProtocol_shadowsocks env c r.Body n0 h3] at hproto
      obtain ⟨rsp, -, rfl⟩ := parseShadowsocks_ok env r.Body n0 node hproto
      exact htls
    · by_cases h5 : c.NodeType = "hysteria"
      · rw [parseProtocol_hysteria env c r.Body n0 h5] at hproto
        obtain ⟨rsp, -, rfl⟩ := parseHysteria_ok env r.Body n0 node hproto
        exact htls
      · rw [parseProtocol_unknown env c r.Body n0 h1 h2 h3 h4 h5] at hproto
        simp only [Except.ok.injEq] at hproto
        subst hproto
        exact htls

/-- C12 at sample runs: `vmess` with wire `tls` 1 and 0, `vless` with wire
`tls` 1, `trojan` (scenario S5), `shadowsocks` (scenario S4). -/
theorem tls_flag_witness :
    vmessNode.Tls = true ∧
    ({ commonNode "vmess" with Network := "ws" } : NodeInfo).Tls = false ∧
    nodeVlessTls1.Tls = true ∧
    ({ commonNode "trojan" with Tls := true } : NodeInfo).Tls = true ∧
    nodeShadowsocks.Tls = false := by
  have h1 : GetNodeInfo sampleEnv vmessClient sampleResponse none =
      Exec.ret ⟨some vmessNode, none, { vmessClient with nodeEtag := "abc" }⟩ := by decide
  have h2 : GetNodeInfo envVMessTls0 vmessClient sampleResponse none =
      Exec.ret ⟨some { commonNode "vmess" with Network := "ws" }, none,
        { vmessClient with nodeEtag := "abc" }⟩ := by decide
  have h3 : GetNodeInfo envVlessTls1 vlessClient sampleResponse none =
      Exec.ret ⟨some nodeVlessTls1, none, { vlessClient with nodeEtag := "abc" }⟩ := by decide
  have h4 : GetNodeInfo sampleEnv (clientOf "trojan") sampleResponse none =
      Exec.ret ⟨some { commonNode "trojan" with Tls := true }, none,
        { clientOf "trojan" with nodeEtag := "abc" }⟩ := by decide
  have h5 : GetNodeInfo sampleEnv (clientOf "shadowsocks") sampleResponse none =
      Exec.ret ⟨some nodeShadowsocks, none,
        { clientOf "shadowsocks" with nodeEtag := "abc" }⟩ := by decide
  refine ⟨?_, ?_, ?_, ?_, ?_⟩
  · obtain ⟨rsp, hrsp, ht⟩ := (tls_flag sampleEnv vmessClient sampleResponse none _ _ h1 rfl).1 rfl
    have : rsp = ⟨1, "tcp", []⟩ := by
      have h : Except.ok (⟨1, "tcp", []⟩ : VMessNodeRsp) = Except.ok rsp := hrsp
      simp only [Except.ok.injEq] at h
      exact h.symm
    rw [ht, this]; rfl
  · obtain ⟨rsp, hrsp, ht⟩ := (tls_flag envVMessTls0 vmessClient sampleResponse none _ _ h2 rfl).1 rfl
    have : rsp = ⟨0, "ws", []⟩ := by
      have h : Except.ok (⟨0, "ws", []⟩ : VMessNodeRsp) = Except.ok rsp := hrsp
      simp only [Except.ok.injEq] at h
      exact h.symm
    rw [ht, this]; rfl
  · obtain ⟨rsp, hrsp, ht⟩ := (tls_flag envVlessTls1 vlessClient sampleResponse none _ _ h3 rfl).2.1 rfl
    have : rsp = ⟨"flow", 1, [], "tcp", []⟩ := by
      have h : Except.ok (⟨"flow", 1, [], "tcp", []⟩ : VLESSNodeRsp) = Except.ok rsp := hrsp
      simp only [Except.ok.injEq] at h
      exact h.symm
    rw [ht, this]; rfl
  · exact (tls_flag sampleEnv (clientOf "trojan") sampleResponse none _ _ h4 rfl).2.2.1 rfl
  · exact (tls_flag sampleEnv (clientOf "shadowsocks") sampleResponse none _ _ h5 rfl).2.2.2
      (by decide) (by decide) (by decide)

/-- The `vmess` case leaves the common fields alone. -/
theorem parseVMess_frame (env : Env) (c : Client) (body : List UInt8) (node n : NodeInfo)
    (h : parseVMess env c body node = Except.ok n) :
    n.Port = node.Port ∧ n.Host = node.Host ∧ n.ServerName = node.ServerName ∧
    n.Rules = node.Rules ∧ n.RawDNS = node.RawDNS ∧ n.PullInterval = node.PullInterval ∧
    n.PushInterval = node.PushInterval := by
  unfold parseVMess at h
  cases hv : env.unmarshalVMess body with
  | error e => simp [hv] at h
  | ok rsp =>
    simp only [hv] at h
    cases hx : env.unmarshalExtraConfig rsp.NetworkSettings with
    | error e => simp [hx] at h
    | ok extra =>
      simp only [hx] at h
      by_cases ht : extra.EnableReality = "true"
      · rw [if_pos ht] at h
        cases hr : extra.RealityConfig with
        | none =>
          rw [hr] at h
          simp only [Except.ok.injEq] at h
          subst h
          refine ⟨?_, ?_, ?_, ?_, ?_, ?_, ?_⟩ <;> split_ifs <;> rfl
        | some rc =>
          rw [hr] at h
          simp only [Except.ok.injEq] at h
          subst h
          refine ⟨?_, ?_, ?_, ?_, ?_, ?_, ?_⟩ <;> split_ifs <;> rfl
      · rw [if_neg ht] at h
        simp only [Except.ok.injEq] at h
        subst h
        refine ⟨?_, ?_, ?_, ?_, ?_, ?_, ?_⟩ <;> split_ifs <;> rfl

/-- The `vless` case leaves the common fields alone. -/
theorem parseVLESS_frame (env : Env) (c : Client) (body : List UInt8) (node n : NodeInfo)
    (h : parseVLESS env c body node = Except.ok n) :
    n.Port = node.Port ∧ n.Host = node.Host ∧ n.ServerName = node.ServerName ∧
    n.Rules = node.Rules ∧ n.RawDNS = node.RawDNS ∧ n.PullInterval = node.PullInterval ∧
    n.PushInterval = node.PushInterval := by
  unfold parseVLESS at h
  cases hv : env.unmarshalVLESS body with
  | error e => simp [hv] at h
  | ok rsp =>
    simp only [hv] at h
    by_cases h2 : rsp.Tls = 2
    · rw [if_pos h2] at h
      cases ht : env.unmarshalTlsSettings rsp.TlsSettings with
      | error e => simp [ht] at h
      | ok tls =>
        rw [ht] at h
        simp only [Except.ok.injEq] at h
        subst h
        refine ⟨?_, ?_, ?_, ?_, ?_, ?_, ?_⟩ <;> split_ifs <;> rfl
    · rw [if_neg h2] at h
      simp only [Except.ok.injEq] at h
      subst h
      refine ⟨?_, ?_, ?_, ?_, ?_, ?_, ?_⟩ <;> split_ifs <;> rfl

/-- The protocol part leaves the common fields alone, whatever the node type. -/
theorem parseProtocol_frame (env : Env) (c : Client) (body : List UInt8) (node n : NodeInfo)
    (h : parseProtocol env c body node = Except.ok n) :
    n.Port = node.Port ∧ n.Host = node.Host ∧ n.ServerName = node.ServerName ∧
    n.Rules = node.Rules ∧ n.RawDNS = node.RawDNS ∧ n.PullInterval = node.PullInterval ∧
    n.PushInterval = node.PushInterval := by
  by_cases h1 : c.NodeType = "vmess"
  · rw [parseProtocol_vmess env c body node h1] at h
    exact parseVMess_frame env c body node n h
  · by_cases h2 : c.NodeType = "vless"
    · rw [parseProtocol_vless env c body node h2] at h
      exact parseVLESS_frame env c body node n h
    · by_cases h3 : c.NodeType = "shadowsocks"
      · rw [parseProtocol_shadowsocks env c body node h3] at h
        obtain ⟨rsp, -, rfl⟩ := parseShadowsocks_ok env body node n h
        exact ⟨rfl, rfl, rfl, rfl, rfl, rfl, rfl⟩
      · by_cases h4 : c.NodeType = "trojan"
        · rw [parseProtocol_trojan env c body node h4] at h
          simp only [Except.ok.injEq] at h
          subst h
          exact ⟨rfl, rfl, rfl, rfl, rfl, rfl, rfl⟩
        · by_cases h5 : c.NodeType = "hysteria"
          · rw [parseProtocol_hysteria env c body node h5] at h
            obtain ⟨rsp, -, rfl⟩ := parseHysteria_ok env body node n h
            exact ⟨rfl, rfl, rfl, rfl, rfl, rfl, rfl⟩
          · rw [parseProtocol_unknown env c body node h1 h2 h3 h4 h5] at h
            simp only [Except.ok.injEq] at h
            subst h
            exact ⟨rfl, rfl, rfl, rfl, rfl, rfl, rfl⟩

/-- C17. On a call that returns a descriptor: for `shadowsocks`, `Cipher` and
`ServerKey` are the response's and `UpMbps`, `DownMbps`, `HyObfs` are zero; for
`hysteria`, `UpMbps`, `DownMbps`, `HyObfs` are the response's `up_mbps`,
`down_mbps`, `obfs` and `Cipher`, `ServerKey` are empty; in both cases
`Network`, `NetworkSettings` and `ExtraConfig` are zero. -/
theorem shadowsocks_hysteria_fields (env : Env) (c : Client) (r : Response)
    (err : Option String) (res : Returned) (node : NodeInfo)
    (hret : GetNodeInfo env c r err = Exec.ret res) (hnode : res.node = some node) :
    (c.NodeType = "shadowsocks" → ∃ rsp : ShadowsocksNodeRsp,
      env.unmarshalShadowsocks r.Body = Except.ok rsp ∧
      node.Cipher = rsp.Cipher ∧ node.ServerKey = rsp.ServerKey ∧
      node.UpMbps = 0 ∧ node.DownMbps = 0 ∧ node.HyObfs = "" ∧
      node.Network = "" ∧ node.NetworkSettings = [] ∧ node.ExtraConfig = ExtraConfig.zero) ∧
    (c.NodeType = "hysteria" → ∃ rsp : HysteriaNodeRsp,
      env.unmarshalHysteria r.Body = Except.ok rsp ∧
      node.UpMbps = rsp.UpMbps ∧ node.DownMbps = rsp.DownMbps ∧ node.HyObfs = rsp.Obfs ∧
      node.Cipher = "" ∧ node.ServerKey = "" ∧
      node.Network = "" ∧ node.NetworkSettings = [] ∧ node.ExtraConfig = ExtraConfig.zero) := by
  obtain ⟨common, n0, -, -, -, hcommon, hproto, -⟩ := GetNodeInfo_some env c r err res node hret hnode
  obtain ⟨hex, -, -, hnet, hns, hci, hsk, hup, hdown, hobfs, -, -⟩ :=
    parseCommon_protocol_fields common _ n0 hcommon
  constructor
  · intro hty
    rw [parseProtocol_shadowsocks env c r.Body n0 hty] at hproto
    obtain ⟨rsp, hrsp, rfl⟩ := parseShadowsocks_ok env r.Body n0 node hproto
    exact ⟨rsp, hrsp, rfl, rfl, hup, hdown, hobfs, hnet, hns, hex⟩
  · intro hty
    rw [parseProtocol_hysteria env c r.Body n0 hty] at hproto
    obtain ⟨rsp, hrsp, rfl⟩ := parseHysteria_ok env r.Body n0 node hproto
    exact ⟨rsp, hrsp, rfl, rfl, rfl, hci, hsk, hnet, hns, hex⟩

/-- C17 at scenario S4 (`shadowsocks`, cipher `aes-128-gcm`, key `k==`) and at a
`hysteria` response with `up_mbps` 100, `down_mbps` 200, `obfs` `obfs`. -/
theorem shadowsocks_hysteria_fields_witness :
    GetNodeInfo sampleEnv (clientOf "shadowsocks") sampleResponse none =
      Exec.ret ⟨some nodeShadowsocks, none, { clientOf "shadowsocks" with nodeEtag := "abc" }⟩ ∧
    nodeShadowsocks.Cipher = "aes-128-gcm" ∧ nodeShadowsocks.ServerKey = "k==" ∧
    nodeShadowsocks.UpMbps = 0 ∧ nodeShadowsocks.ExtraConfig = ExtraConfig.zero ∧
    GetNodeInfo sampleEnv (clientOf "hysteria") sampleResponse none =
      Exec.ret ⟨some nodeHysteria, none, { clientOf "hysteria" with nodeEtag := "abc" }⟩ ∧
    nodeHysteria.UpMbps = 100 ∧ nodeHysteria.DownMbps = 200 ∧ nodeHysteria.HyObfs = "obfs" ∧
    nodeHysteria.Cipher = "" ∧ nodeHysteria.Network = "" := by
  have h1 : GetNodeInfo sampleEnv (clientOf "shadowsocks") sampleResponse none =
      Exec.ret ⟨some nodeShadowsocks, none,
        { clientOf "shadowsocks" with nodeEtag := "abc" }⟩ := by decide
  have h2 : GetNodeInfo sampleEnv (clientOf "hysteria") sampleResponse none =
      Exec.ret ⟨some nodeHysteria, none,
        { clientOf "hysteria" with nodeEtag := "abc" }⟩ := by decide
  obtain ⟨rsp, hrsp, a1, a2, a3, -, -, -, -, a8⟩ :=
    (shadowsocks_hysteria_fields sampleEnv (clientOf "shadowsocks") sampleResponse none _ _
      h1 rfl).1 rfl
  obtain ⟨rsp2, hrsp2, b1, b2, b3, b4, -, b6, -, -⟩ :=
    (shadowsocks_hysteria_fields sampleEnv (clientOf "hysteria") sampleResponse none _ _
      h2 rfl).2 rfl
  have e1 : rsp = ⟨"aes-128-gcm", "k=="⟩ := by
    have h : Except.ok (⟨"aes-128-gcm", "k=="⟩ : ShadowsocksNodeRsp) = Except.ok rsp := hrsp
    simp only [Except.ok.injEq] at h
    exact h.symm
  have e2 : rsp2 = ⟨100, 200, "obfs"⟩ := by
    have h : Except.ok (⟨100, 200, "obfs"⟩ : HysteriaNodeRsp) = Except.ok rsp2 := hrsp2
    simp only [Except.ok.injEq] at h
    exact h.symm
  subst e1 e2
  exact ⟨h1, a1, a2, a3, a8, h2, b1, b2, b3, b4, b6⟩

/-- C16 (evaluation at the failing input, and what holds short of it). For the
node type `socks`, which has no case, the response of `envNoPullInterval`
passes the check and decodes, yet `GetNodeInfo` panics in the common part.
Whenever the common part returns, a node type with no case does give a
descriptor: the one the common part built, with the protocol fields zero and
the common fields from the envelope. -/
theorem unknown_type_descriptor :
    envNoPullInterval.checkResponse sampleResponse none = none ∧
    (∃ common, envNoPullInterval.unmarshalCommon sampleResponse.Body = Except.ok common) ∧
    GetNodeInfo envNoPullInterval (clientOf "socks") sampleResponse none =
      Exec.panic "invalid memory address or nil pointer dereference" ∧
    (∀ (env : Env) (c : Client) (r : Response) (err : Option String)
      (common : CommonNodeRsp) (n0 : NodeInfo),
      c.NodeType ≠ "vmess" → c.NodeType ≠ "vless" → c.NodeType ≠ "shadowsocks" →
      c.NodeType ≠ "trojan" → c.NodeType ≠ "hysteria" →
      env.checkResponse r err = none → r.StatusCode ≠ 304 →
      env.unmarshalCommon r.Body = Except.ok common →
      parseCommon common (NodeInfo.init c.NodeId c.NodeType) = Exec.ret n0 →
      GetNodeInfo env c r err = Exec.ret ⟨some n0, none, { c with nodeEtag := r.ETag }⟩ ∧
      n0.Network = "" ∧ n0.NetworkSettings = [] ∧ n0.TlsSettings = TlsSettings.zero ∧
      n0.ExtraConfig = ExtraConfig.zero ∧ n0.Cipher = "" ∧ n0.ServerKey = "" ∧
      n0.UpMbps = 0 ∧ n0.DownMbps = 0 ∧ n0.HyObfs = "" ∧ n0.Tls = false ∧
      n0.Host = common.Host ∧ n0.Port = common.ServerPort ∧
      n0.ServerName = common.ServerName ∧
      (∃ n1, interpretRoutes common.Routes (NodeInfo.init c.NodeId c.NodeType) = Exec.ret n1 ∧
        n0.Rules = n1.Rules ∧ n0.RawDNS = n1.RawDNS) ∧
      intervalToTime common.BaseConfig.PullInterval = Exec.ret n0.PullInterval ∧
      intervalToTime common.BaseConfig.PushInterval = Exec.ret n0.PushInterval) := by
  refine ⟨rfl, ⟨_, rfl⟩, rfl, ?_⟩
  intro env c r err common n0 h1 h2 h3 h4 h5 hc hs hu hp
  obtain ⟨hex, htl, htls, hnet, hns, hci, hsk, hup, hdown, hobfs, -, -⟩ :=
    parseCommon_protocol_fields common _ n0 hp
  obtain ⟨ch, cp, cs, cr, cpull, cpush⟩ := parseCommon_common_fields common _ n0 hp
  refine ⟨?_, hnet, hns, htl, hex, hci, hsk, hup, hdown, hobfs, htls, ch, cp, cs, cr,
    cpull, cpush⟩
  rw [GetNodeInfo_of_common env c r err common n0 hc hs hu hp,
    parseProtocol_unknown env c r.Body n0 h1 h2 h3 h4 h5]

/-! ## Claims about the entity tag and the common envelope -/

/-- C13. Whenever `GetNodeInfo` returns: with a descriptor, the cached entity
tag afterwards is the response's `ETag` value and the rest of the client is as
before; with an error, the client, its cached entity tag included, is as
before and there is no descriptor. The errors are: the response check's, the
common decode error, and any error of the protocol part. -/
theorem etag_effect (env : Env) (c : Client) (r : Response) (err : Option String)
    (res : Returned) (hret : GetNodeInfo env c r err = Exec.ret res) :
    (∀ node, res.node = some node →
      res.c.nodeEtag = r.ETag ∧ res.c = { c with nodeEtag := r.ETag } ∧ res.err = none) ∧
    (∀ e, res.err = some e → res.c.nodeEtag = c.nodeEtag ∧ res.c = c ∧ res.node = none) ∧
    (∀ e, env.checkResponse r err = some e → res = ⟨none, some e, c⟩) ∧
    (∀ e, env.checkResponse r err = none → r.StatusCode ≠ 304 →
      env.unmarshalCommon r.Body = Except.error e →
      res = ⟨none, some ("decode common params error: " ++ e), c⟩) ∧
    (∀ (common : CommonNodeRsp) (n0 : NodeInfo) (e : String),
      env.checkResponse r err = none → r.StatusCode ≠ 304 →
      env.unmarshalCommon r.Body = Except.ok common →
      parseCommon common (NodeInfo.init c.NodeId c.NodeType) = Exec.ret n0 →
      parseProtocol env c r.Body n0 = Except.error e → res = ⟨none, some e, c⟩) := by
  refine ⟨?_, ?_, ?_, ?_, ?_⟩
  · intro node hn
    rcases GetNodeInfo_ret_cases env c r err res hret with ⟨e, rfl⟩ | rfl | ⟨n, rfl⟩
    · simp at hn
    · simp at hn
    · exact ⟨rfl, rfl, rfl⟩
  · intro e he
    rcases GetNodeInfo_ret_cases env c r err res hret with ⟨e1, rfl⟩ | rfl | ⟨n, rfl⟩
    · exact ⟨rfl, rfl, rfl⟩
    · simp at he
    · simp at he
  · intro e hc
    unfold GetNodeInfo at hret
    simp only [hc, Exec.ret.injEq] at hret
    exact hret.symm
  · intro e hc hs hu
    unfold GetNodeInfo at hret
    simp only [hc, hs, if_false, hu, Exec.ret.injEq] at hret
    exact hret.symm
  · intro common n0 e hc hs hu hp hq
    rw [GetNodeInfo_of_common env c r err common n0 hc hs hu hp, hq] at hret
    simp only [Exec.ret.injEq] at hret
    exact hret.symm

/-- C13 at six runs from the cached tag `old`: a descriptor (tag becomes `abc`),
then a transport error, a common decode error, a `vmess` decode error, a
`vmess` `network_settings` decode error and a `vless` `tls_settings` decode
error (tag stays `old`). -/
theorem etag_effect_witness :
    ({ vmessClient with nodeEtag := "abc" } : Client).nodeEtag = "abc" ∧
    vmessClient.nodeEtag = "old" ∧
    GetNodeInfo sampleEnv vmessClient sampleResponse (some "timeout") =
      Exec.ret ⟨none, some "timeout", vmessClient⟩ ∧
    GetNodeInfo envCommonError vmessClient sampleResponse none =
      Exec.ret ⟨none, some "decode common params error: unexpected end of JSON input",
        vmessClient⟩ ∧
    GetNodeInfo envVMessError vmessClient sampleResponse none =
      Exec.ret ⟨none, some "decode v2ray params error: tls is not a number", vmessClient⟩ ∧
    GetNodeInfo envExtraError vmessClient sampleResponse none =
      Exec.ret ⟨none, some "decode vless extra error: unexpected end of JSON input",
        vmessClient⟩ ∧
    GetNodeInfo envTlsSettingsError vlessClient sampleResponse none =
      Exec.ret ⟨none, some "decode vless extra error: unexpected end of JSON input",
        vlessClient⟩ := by
  have h0 : GetNodeInfo sampleEnv vmessClient sampleResponse none =
      Exec.ret ⟨some vmessNode, none, { vmessClient with nodeEtag := "abc" }⟩ := by decide
  have h1 : GetNodeInfo sampleEnv vmessClient sampleResponse (some "timeout") =
      Exec.ret ⟨none, some "timeout", vmessClient⟩ := by decide
  have h2 : GetNodeInfo envCommonError vmessClient sampleResponse none =
      Exec.ret ⟨none, some "decode common params error: unexpected end of JSON input",
        vmessClient⟩ := by decide
  have h3 : GetNodeInfo envVMessError vmessClient sampleResponse none =
      Exec.ret ⟨none, some "decode v2ray params error: tls is not a number",
        vmessClient⟩ := by decide
  have h4 : GetNodeInfo envExtraError vmessClient sampleResponse none =
      Exec.ret ⟨none, some "decode vless extra error: unexpected end of JSON input",
        vmessClient⟩ := by decide
  have h5 : GetNodeInfo envTlsSettingsError vlessClient sampleResponse none =
      Exec.ret ⟨none, some "decode vless extra error: unexpected end of JSON input",
        vlessClient⟩ := by decide
  refine ⟨?_, ?_, h1, h2, h3, h4, h5⟩
  · exact ((etag_effect sampleEnv vmessClient sampleResponse none _ h0).1 vmessNode rfl).1
  · exact ((etag_effect sampleEnv vmessClient sampleResponse (some "timeout") _ h1).2.1
      "timeout" rfl).1

/-- C14. For every client and every response with status 304 that passes the
response check, `GetNodeInfo` returns no descriptor and no error and leaves the
client, its cached entity tag included, as it was; the result is the same
whatever the decoders are, so the body is not parsed. -/
theorem not_modified_unchanged (env : Env) (c : Client) (r : Response)
    (err : Option String) (hc : env.checkResponse r err = none)
    (hs : r.StatusCode = 304) :
    GetNodeInfo env c r err = Exec.ret ⟨none, none, c⟩ ∧
    (∀ env1 : Env, env1.checkResponse = env.checkResponse →
      GetNodeInfo env1 c r err = Exec.ret ⟨none, none, c⟩) := by
  constructor
  · unfold GetNodeInfo
    simp only [hc, hs, if_true]
  · intro env1 h1
    unfold GetNodeInfo
    simp only [h1, hc, hs, if_true]

/-- C14 at scenario S6: after the first call stored the tag `abc`, a 304
response leaves the tag `abc`, also under decoders that reject every body. -/
theorem not_modified_unchanged_witness :
    GetNodeInfo sampleEnv { vmessClient with nodeEtag := "abc" } ⟨304, [], ""⟩ none =
      Exec.ret ⟨none, none, { vmessClient with nodeEtag := "abc" }⟩ ∧
    GetNodeInfo envCommonError { vmessClient with nodeEtag := "abc" } ⟨304, [], ""⟩ none =
      Exec.ret ⟨none, none, { vmessClient with nodeEtag := "abc" }⟩ := by
  have h := not_modified_unchanged sampleEnv { vmessClient with nodeEtag := "abc" }
    ⟨304, [], ""⟩ none rfl rfl
  exact ⟨h.1, h.2 envCommonError rfl⟩

/-- C15 as stated fails. With `server_port` 0 or 70000 in the common envelope,
`GetNodeInfo` returns a descriptor whose `Port` is 0 or 70000, outside
`[1, 65535]`. -/
theorem port_out_of_range_counterexample :
    GetNodeInfo (envPort 0) vmessClient sampleResponse none =
      Exec.ret ⟨some { vmessNode with Port := 0 }, none,
        { vmessClient with nodeEtag := "abc" }⟩ ∧
    ¬ (1 ≤ ({ vmessNode with Port := 0 } : NodeInfo).Port ∧
      ({ vmessNode with Port := 0 } : NodeInfo).Port ≤ 65535) ∧
    GetNodeInfo (envPort 70000) vmessClient sampleResponse none =
      Exec.ret ⟨some { vmessNode with Port := 70000 }, none,
        { vmessClient with nodeEtag := "abc" }⟩ ∧
    ¬ (1 ≤ ({ vmessNode with Port := 70000 } : NodeInfo).Port ∧
      ({ vmessNode with Port := 70000 } : NodeInfo).Port ≤ 65535) := by
  refine ⟨by decide, by decide, by decide, by decide⟩

/-- C15, amended. On every call that returns a descriptor, the common envelope
decoded to some `common` and the descriptor's `Port` is `common.ServerPort`,
unchecked: it lies in `[1, 65535]` exactly when `server_port` does. `Host` and
`ServerName` are copied the same way. -/
theorem port_is_server_port (env : Env) (c : Client) (r : Response) (err : Option String)
    (res : Returned) (node : NodeInfo)
    (hret : GetNodeInfo env c r err = Exec.ret res) (hnode : res.node = some node) :
    ∃ common : CommonNodeRsp, env.unmarshalCommon r.Body = Except.ok common ∧
      node.Port = common.ServerPort ∧
      ((1 ≤ node.Port ∧ node.Port ≤ 65535) ↔
        (1 ≤ common.ServerPort ∧ common.ServerPort ≤ 65535)) ∧
      node.Host = common.Host ∧ node.ServerName = common.ServerName := by
  obtain ⟨common, n0, -, -, hu, hcommon, hproto, -⟩ :=
    GetNodeInfo_some env c r err res node hret hnode
  obtain ⟨ch, cp, cs, -⟩ := parseCommon_common_fields common _ n0 hcommon
  obtain ⟨fp, fh, fs, -⟩ := parseProtocol_frame env c r.Body n0 node hproto
  refine ⟨common, hu, by rw [fp, cp], by rw [fp, cp], by rw [fh, ch], by rw [fs, cs]⟩

/-- C15 at two runs: `server_port` 443 gives `Port` 443, `server_port` 70000
gives `Port` 70000. -/
theorem port_is_server_port_witness :
    vmessNode.Port = 443 ∧ ({ vmessNode with Port := 70000 } : NodeInfo).Port = 70000 := by
  have h1 : GetNodeInfo sampleEnv vmessClient sampleResponse none =
      Exec.ret ⟨some vmessNode, none, { vmessClient with nodeEtag := "abc" }⟩ := by decide
  have h2 : GetNodeInfo (envPort 70000) vmessClient sampleResponse none =
      Exec.ret ⟨some { vmessNode with Port := 70000 }, none,
        { vmessClient with nodeEtag := "abc" }⟩ := by decide
  obtain ⟨common, hu, hp, -⟩ :=
    port_is_server_port sampleEnv vmessClient sampleResponse none _ _ h1 rfl
  obtain ⟨common2, hu2, hp2, -⟩ :=
    port_is_server_port (envPort 70000) vmessClient sampleResponse none _ _ h2 rfl
  have e1 : common = sampleCommon := by
    have h : Except.ok sampleCommon = Except.ok common := hu
    simp only [Except.ok.injEq] at h
    exact h.symm
  have e2 : common2 = { sampleCommon with ServerPort := 70000 } := by
    have h : Except.ok ({ sampleCommon with ServerPort := 70000 } : CommonNodeRsp) =
        Except.ok common2 := hu2
    simp only [Except.ok.injEq] at h
    exact h.symm
  rw [e1] at hp
  rw [e2] at hp2
  exact ⟨hp, hp2⟩

/-! ## Facts about splitting -/

theorem splitChars_ne_nil (sep : Char) (cs : List Char) : splitChars sep cs ≠ [] := by
  cases cs with
  | nil => simp [splitChars]
  | cons c cs =>
    unfold splitChars
    by_cases h : c = sep
    · simp [h]
    · simp only [h, if_false]
      cases splitChars sep cs <;> simp

theorem splitChars_no_sep (sep : Char) (cs : List Char) :
    ∀ w ∈ splitChars sep cs, sep ∉ w := by
  induction cs with
  | nil => intro w hw; simp [splitChars] at hw; simp [hw]
  | cons c cs ih =>
    intro w hw
    unfold splitChars at hw
    by_cases h : c = sep
    · simp only [h, if_true, List.mem_cons] at hw
      rcases hw with rfl | hw
      · simp
      · exact ih w hw
    · simp only [h, if_false] at hw
      cases hs : splitChars sep cs with
      | nil =>
        simp only [hs, List.mem_singleton] at hw
        subst hw
        simpa using fun e => h e.symm
      | cons x xs =>
        simp only [hs, List.mem_cons] at hw
        rcases hw with rfl | hw
        · have hx := ih x (by rw [hs]; exact List.mem_cons_self _ _)
          simp only [List.mem_cons, not_or]
          exact ⟨fun e => h e.symm, hx⟩
        · exact ih w (by rw [hs]; exact List.mem_cons_of_mem _ hw)

/-- The pieces of a split, put back with the separator before each piece but
the first, are the input. -/
theorem splitChars_join (sep : Char) (cs : List Char) :
    ∀ (w : List Char) (ws : List (List Char)), splitChars sep cs = w :: ws →
      w ++ (ws.map (fun x => sep :: x)).flatten = cs := by
  induction cs with
  | nil =>
    intro w ws h
    simp only [splitChars, List.cons.injEq] at h
    obtain ⟨rfl, rfl⟩ := h
    rfl
  | cons c cs ih =>
    intro w ws h
    unfold splitChars at h
    by_cases hc : c = sep
    · simp only [hc, if_true, List.cons.injEq] at h
      obtain ⟨rfl, rfl⟩ := h
      cases hs : splitChars sep cs with
      | nil => exact absurd hs (splitChars_ne_nil sep cs)
      | cons x xs =>
        have := ih x xs hs
        simp only [List.map_cons, List.flatten_cons, List.nil_append, List.cons_append, hc]
        rw [this]
    · simp only [hc, if_false] at h
      cases hs : splitChars sep cs with
      | nil => exact absurd hs (splitChars_ne_nil sep cs)
      | cons x xs =>
        simp only [hs, List.cons.injEq] at h
        obtain ⟨rfl, rfl⟩ := h
        have := ih x xs hs
        simp only [List.cons_append]
        rw [this]

theorem intercalate_go_data (sep : String) (xs : List String) :
    ∀ acc : String, (String.intercalate.go acc sep xs).data =
      acc.data ++ (xs.map (fun a => sep.data ++ a.data)).flatten := by
  induction xs with
  | nil => intro acc; simp [String.intercalate.go]
  | cons x xs ih =>
    intro acc
    simp only [String.intercalate.go, ih, String.data_append, List.map_cons,
      List.flatten_cons, List.append_assoc]

/-- The type assertions of node.go:151-153 succeed on a list of strings. -/
theorem assertStrings_map_str (xs : List String) :
    assertStrings (xs.map GoVal.str) = Exec.ret xs := by
  induction xs with
  | nil => rfl
  | cons x xs ih => simp [assertStrings, assertString, ih]

theorem wrap64_range (z : Int) : -(2 : Int) ^ 63 ≤ wrap64 z ∧ wrap64 z < 2 ^ 63 := by
  unfold wrap64
  constructor <;> omega

theorem wrap64_congr (z : Int) : (wrap64 z - z) % 2 ^ 64 = 0 := by
  unfold wrap64
  omega

/-! ## Claims about normalization, the `dns` index and the duration range -/

/-- C18. Match normalization of a string `s` returns `Split s ','`: the list is
not empty (for the empty string it is `[""]`), no element holds a comma, and
joining the elements with `,` gives `s` back. Normalization of a list of
strings, as `[]string` or as a list of string values, returns that list. -/
theorem match_normalization (s : String) (xs : List String) :
    matchsOf (GoVal.str s) = Exec.ret (Split s ',') ∧
    Split s ',' ≠ [] ∧
    Split "" ',' = [""] ∧
    (∀ m ∈ Split s ',', ',' ∉ m.data) ∧
    String.intercalate "," (Split s ',') = s ∧
    matchsOf (GoVal.strs xs) = Exec.ret xs ∧
    matchsOf (GoVal.list (xs.map GoVal.str)) = Exec.ret xs := by
  refine ⟨rfl, ?_, by decide, ?_, ?_, rfl, ?_⟩
  · simpa [Split] using splitChars_ne_nil ',' s.data
  · intro m hm
    simp only [Split, List.mem_map] at hm
    obtain ⟨w, hw, rfl⟩ := hm
    exact splitChars_no_sep ',' s.data w hw
  · cases hs : splitChars ',' s.data with
    | nil => exact absurd hs (splitChars_ne_nil ',' s.data)
    | cons w ws =>
      have hj := splitChars_join ',' s.data w ws hs
      apply String.ext
      simp only [Split, hs, List.map_cons, String.intercalate, intercalate_go_data,
        List.map_map]
      rw [← hj]
      rfl
  · simp only [matchsOf]
    exact assertStrings_map_str xs

/-- C18 at the string `a,b,,c` and at the list `["a.com", "b.com"]`. -/
theorem match_normalization_witness :
    matchsOf (GoVal.str "a,b,,c") = Exec.ret ["a", "b", "", "c"] ∧
    String.intercalate "," ["a", "b", "", "c"] = "a,b,,c" ∧
    matchsOf (GoVal.list [GoVal.str "a.com", GoVal.str "b.com"]) =
      Exec.ret ["a.com", "b.com"] := by
  have h := match_normalization "a,b,,c" ["a.com", "b.com"]
  have hs : Split "a,b,,c" ',' = ["a", "b", "", "c"] := by decide
  obtain ⟨h1, -, -, -, h5, -, h7⟩ := h
  rw [hs] at h1 h5
  exact ⟨h1, h5, h7⟩

/-- C19. A `dns` route whose `match` is the empty list makes the route loop
panic on `matchs[0]`, at any position and from any descriptor, and
`GetNodeInfo` on a response with such a route panics. A `dns` route whose
`match` is a string, or a non-empty list of strings, is processed without a
panic. -/
theorem dns_first_match_access :
    (∀ (i : Nat) (id : Int) (av : String) (node : NodeInfo),
      routeStep i ⟨id, GoVal.list [], "dns", av⟩ node =
        Exec.panic "runtime error: index out of range [0] with length 0") ∧
    (∀ (i : Nat) (id : Int) (av : String) (node : NodeInfo),
      routeStep i ⟨id, GoVal.strs [], "dns", av⟩ node =
        Exec.panic "runtime error: index out of range [0] with length 0") ∧
    GetNodeInfo envEmptyDnsMatch vmessClient sampleResponse none =
      Exec.panic "runtime error: index out of range [0] with length 0" ∧
    (∀ (i : Nat) (id : Int) (s av : String) (node : NodeInfo),
      ∃ n, routeStep i ⟨id, GoVal.str s, "dns", av⟩ node = Exec.ret n) ∧
    (∀ (i : Nat) (id : Int) (xs : List String) (av : String) (node : NodeInfo), xs ≠ [] →
      (∃ n, routeStep i ⟨id, GoVal.strs xs, "dns", av⟩ node = Exec.ret n) ∧
      (∃ n, routeStep i ⟨id, GoVal.list (xs.map GoVal.str), "dns", av⟩ node = Exec.ret n)) := by
  have hdns : ("dns" : String) ≠ "block" := by decide
  have key : ∀ (i : Nat) (av : String) (ms : List String) (node : NodeInfo), ms ≠ [] →
      ∃ n, dnsCase i av ms node = Exec.ret n := by
    intro i av ms node hne
    cases ms with
    | nil => exact absurd rfl hne
    | cons m0 rest =>
      simp only [dnsCase]
      split_ifs <;> exact ⟨_, rfl⟩
  refine ⟨?_, ?_, rfl, ?_, ?_⟩
  · intro i id av node
    simp [routeStep, matchsOf, assertStrings, hdns, dnsCase]
  · intro i id av node
    simp [routeStep, matchsOf, hdns, dnsCase]
  · intro i id s av node
    obtain ⟨n, hn⟩ := key i av (Split s ',') node (by
      simpa [Split] using splitChars_ne_nil ',' s.data)
    exact ⟨n, by simp [routeStep, matchsOf, hdns, hn]⟩
  · intro i id xs av node hne
    obtain ⟨n, hn⟩ := key i av xs node hne
    exact ⟨⟨n, by simp [routeStep, matchsOf, hdns, hn]⟩,
      ⟨n, by simp [routeStep, matchsOf, assertStrings_map_str, hdns, hn]⟩⟩

/-- C19 at position 0: the empty list panics, the one-element list
`["a.com"]` does not. -/
theorem dns_first_match_access_witness :
    routeStep 0 ⟨1, GoVal.list [], "dns", "1.1.1.1"⟩ (NodeInfo.init 1 "vmess") =
      Exec.panic "runtime error: index out of range [0] with length 0" ∧
    (∃ n, routeStep 0 ⟨1, GoVal.list [GoVal.str "a.com"], "dns", "1.1.1.1"⟩
      (NodeInfo.init 1 "vmess") = Exec.ret n) := by
  obtain ⟨h1, -, -, -, h5⟩ := dns_first_match_access
  exact ⟨h1 0 1 "1.1.1.1" _, (h5 0 1 ["a.com"] "1.1.1.1" _ (by decide)).2⟩

/-- C20. For an integer `n`, given directly or (within the `int` range) as its
decimal string, `intervalToTime` returns the signed 64-bit value congruent to
`n * 1000000000` modulo `2 ^ 64`. For `|n| ≤ 9223372036` that value is exactly
`n` seconds. For `n = 9223372037` it is negative, hence not `n` seconds. -/
theorem interval_wraps :
    (∀ n : Int, ∃ t, intervalToTime (GoVal.int n) = Exec.ret t ∧
      -(2 : Int) ^ 63 ≤ t ∧ t < 2 ^ 63 ∧ (t - n * 1000000000) % 2 ^ 64 = 0) ∧
    (∀ n : Int, -(2 : Int) ^ 63 ≤ n → n < 2 ^ 63 →
      ∃ t, intervalToTime (GoVal.str (Itoa n)) = Exec.ret t ∧
        -(2 : Int) ^ 63 ≤ t ∧ t < 2 ^ 63 ∧ (t - n * 1000000000) % 2 ^ 64 = 0) ∧
    (∀ n : Int, |n| ≤ 9223372036 →
      intervalToTime (GoVal.int n) = Exec.ret (n * Second) ∧
      intervalToTime (GoVal.str (Itoa n)) = Exec.ret (n * Second)) ∧
    (∃ t, intervalToTime (GoVal.int 9223372037) = Exec.ret t ∧
      t ≠ 9223372037 * Second ∧ t < 0) ∧
    (∃ t, intervalToTime (GoVal.str "9223372037") = Exec.ret t ∧
      t ≠ 9223372037 * Second ∧ t < 0) := by
  refine ⟨?_, ?_, ?_, ?_, ?_⟩
  · intro n
    exact ⟨_, rfl, (wrap64_range _).1, (wrap64_range _).2, wrap64_congr _⟩
  · intro n h1 h2
    have hA := Atoi_Itoa n h1 h2
    refine ⟨wrap64 (n * Second), by simp only [intervalToTime, hA], (wrap64_range _).1,
      (wrap64_range _).2, wrap64_congr _⟩
  · intro n hn
    have hb := abs_le.mp hn
    have hA := Atoi_Itoa n (by omega) (by omega)
    constructor
    · simp only [intervalToTime, wrap64_seconds n hn]
    · simp only [intervalToTime, hA, wrap64_seconds n hn]
  · exact ⟨-9223372036709551616, by decide, by decide, by decide⟩
  · exact ⟨-9223372036709551616, by decide, by decide, by decide⟩

/-- C20 at `n = 9223372036`, the largest count of seconds that does not wrap,
and at `n = -9223372036`. -/
theorem interval_wraps_witness :
    intervalToTime (GoVal.int 9223372036) = Exec.ret 9223372036000000000 ∧
    intervalToTime (GoVal.str "9223372036") = Exec.ret 9223372036000000000 ∧
    intervalToTime (GoVal.int (-9223372036)) = Exec.ret (-9223372036000000000) ∧
    intervalToTime (GoVal.str "-9223372036") = Exec.ret (-9223372036000000000) := by
  obtain ⟨-, -, h, -, -⟩ := interval_wraps
  have a := h 9223372036 (by decide)
  have b := h (-9223372036) (by decide)
  exact ⟨a.1, a.2, b.1, b.2⟩

end V2bX
